import Mathlib

/-!
# Game.cpp: input latch, placement and removal logic

A shallow embedding of `Game::processEvents`, `Game::addPlant`, `Game::addAnimal`, the four
`remove…` sweeps, `Game::update`, `Game::draw` and the game loop of `Game::Game` with its
frame-time clamp, all in `src/Game.cpp`.

Modelling conventions.

* The classes `Level`, `Plant` and `Animal` are declared elsewhere; the functions of `Game.cpp`
  only call their methods.  They enter as type parameters together with a record
  `Collaborators` of the methods that `Game.cpp` calls, each a pure function.
* The `SDL_Renderer*` argument of the constructors is a drawing handle and is left out.
* `float` values are rationals.  `Game.cpp` mostly stores, passes and truncates them.  Where
  it computes with them, the frame time `dT` and the position `addPlantPosF32` round every
  operation to binary32 with `binary32` (round to nearest, ties to even, 24-bit significand;
  the exponent range is not modelled, no value of these computations leaves the normal
  range).  `addPlantPos`, which `addPlant` uses, is the same position computed exactly.
* `MathAddon::randFloat` and `MathAddon::randAngleRad` are inputs: the values they return in a
  call are arguments of the model.
* Events polled by `SDL_PollEvent` are an explicit list, in polling order, and the cursor
  returned by `SDL_GetMouseState` is a pair of integers.
* `Game::draw` is the list of calls it makes on the renderer, the level and the entities; the
  game loop is run on the list of inputs of its successive iterations.
-/

namespace AlienFarm

/-! ## Constants of the input library -/

/-- Button index of the left mouse button. -/
def SDL_BUTTON_LEFT : Nat := 1

/-- Button index of the middle mouse button. -/
def SDL_BUTTON_MIDDLE : Nat := 2

/-- Button index of the right mouse button. -/
def SDL_BUTTON_RIGHT : Nat := 3

/-- Scancode of the key `A`. -/
def SDL_SCANCODE_A : Nat := 4
/-- Scancode of the key `D`. -/
def SDL_SCANCODE_D : Nat := 7
/-- Scancode of the key `E`. -/
def SDL_SCANCODE_E : Nat := 8
/-- Scancode of the key `Q`. -/
def SDL_SCANCODE_Q : Nat := 20
/-- Scancode of the key `R`. -/
def SDL_SCANCODE_R : Nat := 21
/-- Scancode of the key `S`. -/
def SDL_SCANCODE_S : Nat := 22
/-- Scancode of the key `T`. -/
def SDL_SCANCODE_T : Nat := 23
/-- Scancode of the key `W`. -/
def SDL_SCANCODE_W : Nat := 26
/-- Scancode of the key `1`. -/
def SDL_SCANCODE_1 : Nat := 30
/-- Scancode of the key `2`. -/
def SDL_SCANCODE_2 : Nat := 31
/-- Scancode of the key `3`. -/
def SDL_SCANCODE_3 : Nat := 32
/-- Scancode of the key `4`. -/
def SDL_SCANCODE_4 : Nat := 33
/-- Scancode of the key `5`. -/
def SDL_SCANCODE_5 : Nat := 34
/-- Scancode of the key `6`. -/
def SDL_SCANCODE_6 : Nat := 35
/-- Scancode of the key `7`. -/
def SDL_SCANCODE_7 : Nat := 36
/-- Scancode of the escape key. -/
def SDL_SCANCODE_ESCAPE : Nat := 41

/-! ## Data model -/

/-- The events `processEvents` distinguishes; every other event type is `other`. -/
inductive Event where
  | quit
  | mouseButtonDown (button : Nat)
  | mouseButtonUp (button : Nat)
  | keyDown (scancode : Nat)
  | other
  deriving DecidableEq, Repr

/-- What a left click creates or edits. -/
inductive PlacementMode where
  | tiles
  | plants
  | animals
  deriving DecidableEq, Repr

/-- A point in tile space. -/
structure Vector2D where
  x : ℚ
  y : ℚ
  deriving DecidableEq

/-- The conversion `(int)v` of a `float`: truncation toward zero. -/
def toInt (v : ℚ) : Int :=
  if 0 ≤ v then ⌊v⌋ else ⌈v⌉

/-- Rounding of a rational to the nearest integer, ties to the even one. -/
def roundHalfEven (x : ℚ) : Int :=
  if x - (⌊x⌋ : ℚ) < 1 / 2 then ⌊x⌋
  else if 1 / 2 < x - (⌊x⌋ : ℚ) then ⌊x⌋ + 1
  else if ⌊x⌋ % 2 = 0 then ⌊x⌋ else ⌊x⌋ + 1

/-- The `float` nearest to a rational, ties to even: the value is scaled by the power of two
that gives its significand 24 bits, rounded to an integer and scaled back. -/
def binary32 (q : ℚ) : ℚ :=
  if q = 0 then 0
  else (roundHalfEven (q / (2 : ℚ) ^ (Int.log 2 |q| - 23)) : ℚ) * (2 : ℚ) ^ (Int.log 2 |q| - 23)

/-- The members of `Game` that `Game.cpp` reads and writes. -/
structure Game (Level Plant Animal : Type) where
  placementModeCurrent : PlacementMode
  level : Level
  listPlants : List Plant
  listAnimals : List Animal
  plantTypeIDSelected : Int
  animalTypeIDSelected : Int
  mouseDownStatus : Nat

/-- The methods of `Level`, `Plant` and `Animal` called from `Game.cpp`. -/
structure Collaborators (Level Plant Animal : Type) where
  levelSetTileTypeIDSelected : Level → Int → Level
  levelPlaceTileTypeIDSelected : Level → Int → Int → Level
  plantCheckIfPositionOkForType : Vector2D → Int → Game Level Plant Animal → Bool
  plantNew : Int → Vector2D → Plant
  plantCheckOverlapWithMouse : Plant → Int → Int → Bool
  plantCheckIfTilesUnderOk : Plant → Level → Bool
  animalCheckIfPositionOkForType : Vector2D → Int → Game Level Plant Animal → Bool
  animalNew : Int → Vector2D → ℚ → Animal
  animalCheckCircleOverlap : Animal → Vector2D → ℚ → Bool
  animalCheckIfTilesUnderOk : Animal → Level → Bool

/-- The values returned by the random generator during one call of `processEvents`:
the two `randFloat` calls of `addPlant`, in call order, and the `randAngleRad` call of
`addAnimal`. -/
structure Draws where
  randFloatX : ℚ
  randFloatY : ℚ
  randAngleRad : ℚ

/-- The variables `processEvents` carries through its event loop: the game, the caller's
`running` flag and the local `mouseDownThisFrame`. -/
structure EventLoop (Level Plant Animal : Type) where
  game : Game Level Plant Animal
  running : Bool
  mouseDownThisFrame : Bool

/-- The `update` methods of `Plant` and `Animal` called from `Game::update`.  An animal's
update receives the game for reading. -/
structure UpdateCollaborators (Level Plant Animal : Type) where
  plantUpdate : Plant → ℚ → Plant
  animalUpdate : Animal → ℚ → Game Level Plant Animal → Animal

/-- The two render targets of `Game::draw`: the window (`NULL`) and `textureShadows`. -/
inductive RenderTarget where
  | window
  | textureShadows
  deriving DecidableEq, Repr

/-- The calls `Game::draw` makes on the renderer, the level and the entities. -/
inductive DrawCommand (Level Plant Animal : Type) where
  | setRenderDrawColor (r g b a : Nat)
  | renderClear
  | levelDraw (level : Level) (tileSize : Int)
  | setRenderTarget (target : RenderTarget)
  | levelDrawShadows (level : Level) (tileSize : Int)
  | plantDrawShadow (plantSelected : Plant) (tileSize : Int)
  | animalDrawShadow (animalSelected : Animal) (tileSize : Int)
  | renderCopy
  | plantDraw (plantSelected : Plant) (tileSize : Int)
  | animalDraw (animalSelected : Animal) (tileSize : Int)
  | renderPresent

/-- What one iteration of the game loop reads from outside: the clock sample, the pending
events, the cursor and the random results. -/
structure FrameInput where
  now : Int
  events : List Event
  mouseX : Int
  mouseY : Int
  draws : Draws

/-- The three calls of one iteration of the game loop. -/
inductive LoopCall where
  | processEvents
  | update
  | draw
  deriving DecidableEq, Repr

section Model

variable {Level Plant Animal : Type}

/-! ## Erase while iterating -/

/-- The loop `for (it = begin; it != end;) if (remove(*it)) it = erase(it); else it++;`.
The container is split at the iterator: `before` holds the elements already passed, the
second list starts at `*it`.  Erasing drops the element under the iterator and leaves the
iterator on its successor; `it++` moves the element to `before`. -/
def eraseLoop {α : Type} (remove : α → Bool) : List α → List α → List α
  | before, [] => before
  | before, x :: rest =>
    if remove x then eraseLoop remove before rest
    else eraseLoop remove (before ++ [x]) rest

/-! ## Selection -/

/-- Embedding of `Game::setPlantTypeIDSelected`. -/
def setPlantTypeIDSelected (setPlantTypeIDSelected : Int) (g : Game Level Plant Animal) :
    Game Level Plant Animal :=
  { g with plantTypeIDSelected := setPlantTypeIDSelected,
           placementModeCurrent := PlacementMode.plants }

/-- Embedding of `Game::setAnimalTypeIDSelected`. -/
def setAnimalTypeIDSelected (setAnimalTypeIDSelected : Int) (g : Game Level Plant Animal) :
    Game Level Plant Animal :=
  { g with animalTypeIDSelected := setAnimalTypeIDSelected,
           placementModeCurrent := PlacementMode.animals }

/-! ## Adding and removing entities -/

/-- The local `pos` of `Game::addPlant`: the centre of the tile under the cursor plus the two
random offsets. -/
def addPlantPos (randX randY : ℚ) (posMouse : Vector2D) : Vector2D :=
  let randOffsetX : ℚ := (randX * 2 - 1) * (1 / 10)
  let randOffsetY : ℚ := (randY * 2 - 1) * (1 / 10)
  ⟨(toInt posMouse.x : ℚ) + 1 / 2 + randOffsetX, (toInt posMouse.y : ℚ) + 1 / 2 + randOffsetY⟩

/-- The local `pos` of `Game::addPlant` as the `float` arithmetic computes it: the
conversion of the tile index, both additions, the multiplications, the subtraction and the
literal `0.1f` are each rounded to binary32. -/
def addPlantPosF32 (randX randY : ℚ) (posMouse : Vector2D) : Vector2D :=
  let randOffsetX : ℚ := binary32 (binary32 (binary32 (randX * 2) - 1) * binary32 (1 / 10))
  let randOffsetY : ℚ := binary32 (binary32 (binary32 (randY * 2) - 1) * binary32 (1 / 10))
  ⟨binary32 (binary32 (binary32 (toInt posMouse.x : ℚ) + 1 / 2) + randOffsetX),
    binary32 (binary32 (binary32 (toInt posMouse.y : ℚ) + 1 / 2) + randOffsetY)⟩

/-- Embedding of `Game::addPlant`, with the two `randFloat` results as arguments. -/
def addPlant (c : Collaborators Level Plant Animal) (randX randY : ℚ) (posMouse : Vector2D)
    (g : Game Level Plant Animal) : Game Level Plant Animal :=
  let pos : Vector2D := addPlantPos randX randY posMouse
  if c.plantCheckIfPositionOkForType pos g.plantTypeIDSelected g then
    { g with listPlants := g.listPlants ++ [c.plantNew g.plantTypeIDSelected pos] }
  else g

/-- Embedding of `Game::removePlantsAtMousePosition`. -/
def removePlantsAtMousePosition (c : Collaborators Level Plant Animal) (posMouse : Vector2D)
    (g : Game Level Plant Animal) : Game Level Plant Animal :=
  let remove : Plant → Bool :=
    fun p => c.plantCheckOverlapWithMouse p (toInt posMouse.x) (toInt posMouse.y)
  { g with listPlants := eraseLoop remove [] g.listPlants }

/-- Embedding of `Game::removePlantsIfTilesChanged`. -/
def removePlantsIfTilesChanged (c : Collaborators Level Plant Animal)
    (g : Game Level Plant Animal) : Game Level Plant Animal :=
  let remove : Plant → Bool := fun p => c.plantCheckIfTilesUnderOk p g.level == false
  { g with listPlants := eraseLoop remove [] g.listPlants }

/-- Embedding of `Game::addAnimal`, with the `randAngleRad` result as argument. -/
def addAnimal (c : Collaborators Level Plant Animal) (randAngle : ℚ) (posMouse : Vector2D)
    (g : Game Level Plant Animal) : Game Level Plant Animal :=
  if c.animalCheckIfPositionOkForType posMouse g.animalTypeIDSelected g then
    { g with listAnimals :=
        g.listAnimals ++ [c.animalNew g.animalTypeIDSelected posMouse randAngle] }
  else g

/-- Embedding of `Game::removeAnimalsAtMousePosition`. -/
def removeAnimalsAtMousePosition (c : Collaborators Level Plant Animal) (posMouse : Vector2D)
    (g : Game Level Plant Animal) : Game Level Plant Animal :=
  let remove : Animal → Bool := fun a => c.animalCheckCircleOverlap a posMouse 0
  { g with listAnimals := eraseLoop remove [] g.listAnimals }

/-- Embedding of `Game::removeAnimalsIfTilesChanged`. -/
def removeAnimalsIfTilesChanged (c : Collaborators Level Plant Animal)
    (g : Game Level Plant Animal) : Game Level Plant Animal :=
  let remove : Animal → Bool := fun a => c.animalCheckIfTilesUnderOk a g.level == false
  { g with listAnimals := eraseLoop remove [] g.listAnimals }

/-! ## `Game::processEvents` -/

/-- The body of the `switch (event.key.keysym.scancode)` of `processEvents`. -/
def handleKeyDown (c : Collaborators Level Plant Animal) (scancode : Nat)
    (s : EventLoop Level Plant Animal) : EventLoop Level Plant Animal :=
  if scancode = SDL_SCANCODE_ESCAPE then { s with running := false }
  else if scancode = SDL_SCANCODE_1 ∨ scancode = SDL_SCANCODE_2 ∨ scancode = SDL_SCANCODE_3
      ∨ scancode = SDL_SCANCODE_4 ∨ scancode = SDL_SCANCODE_5 ∨ scancode = SDL_SCANCODE_6
      ∨ scancode = SDL_SCANCODE_7 then
    let tileTypeID : Int := (scancode : Int) - (SDL_SCANCODE_1 : Int)
    { s with game :=
        { s.game with level := c.levelSetTileTypeIDSelected s.game.level tileTypeID,
                      placementModeCurrent := PlacementMode.tiles } }
  else if scancode = SDL_SCANCODE_Q then { s with game := setPlantTypeIDSelected 0 s.game }
  else if scancode = SDL_SCANCODE_W then { s with game := setPlantTypeIDSelected 1 s.game }
  else if scancode = SDL_SCANCODE_E then { s with game := setPlantTypeIDSelected 2 s.game }
  else if scancode = SDL_SCANCODE_R then { s with game := setPlantTypeIDSelected 3 s.game }
  else if scancode = SDL_SCANCODE_T then { s with game := setPlantTypeIDSelected 4 s.game }
  else if scancode = SDL_SCANCODE_A then { s with game := setAnimalTypeIDSelected 0 s.game }
  else if scancode = SDL_SCANCODE_S then { s with game := setAnimalTypeIDSelected 1 s.game }
  else if scancode = SDL_SCANCODE_D then { s with game := setAnimalTypeIDSelected 2 s.game }
  else s

/-- The body of the `switch (event.type)` of `processEvents`: one polled event. -/
def handleEvent (c : Collaborators Level Plant Animal) (event : Event)
    (s : EventLoop Level Plant Animal) : EventLoop Level Plant Animal :=
  match event with
  | Event.quit => { s with running := false }
  | Event.mouseButtonDown button =>
    let s1 : EventLoop Level Plant Animal :=
      { s with mouseDownThisFrame := (s.game.mouseDownStatus == 0) }
    if button = SDL_BUTTON_LEFT then
      { s1 with game := { s1.game with mouseDownStatus := SDL_BUTTON_LEFT } }
    else if button = SDL_BUTTON_RIGHT then
      { s1 with game := { s1.game with mouseDownStatus := SDL_BUTTON_RIGHT } }
    else s1
  | Event.mouseButtonUp _ => { s with game := { s.game with mouseDownStatus := 0 } }
  | Event.keyDown scancode => handleKeyDown c scancode s
  | Event.other => s

/-- The loop `while (SDL_PollEvent(&event))` over the pending events, oldest first. -/
def drainEvents (c : Collaborators Level Plant Animal) (events : List Event)
    (s : EventLoop Level Plant Animal) : EventLoop Level Plant Animal :=
  events.foldl (fun acc event => handleEvent c event acc) s

/-- The block `if (mouseDownStatus > 0) { switch (mouseDownStatus) … }` of `processEvents`. -/
def mouseAction (c : Collaborators Level Plant Animal) (d : Draws) (posMouse : Vector2D)
    (g : Game Level Plant Animal) : Game Level Plant Animal :=
  if g.mouseDownStatus > 0 then
    if g.mouseDownStatus = SDL_BUTTON_LEFT then
      match g.placementModeCurrent with
      | PlacementMode.tiles =>
        removeAnimalsIfTilesChanged c (removePlantsIfTilesChanged c
          { g with level :=
              c.levelPlaceTileTypeIDSelected g.level (toInt posMouse.x) (toInt posMouse.y) })
      | PlacementMode.plants => addPlant c d.randFloatX d.randFloatY posMouse g
      | PlacementMode.animals => addAnimal c d.randAngleRad posMouse g
    else if g.mouseDownStatus = SDL_BUTTON_RIGHT then
      removeAnimalsAtMousePosition c posMouse (removePlantsAtMousePosition c posMouse g)
    else g
  else g

/-- Embedding of `Game::processEvents`: drain the events, sample the cursor, apply the
latched action.  Returns the game and the caller's `running` flag. -/
def processEvents (c : Collaborators Level Plant Animal) (tileSize : Int) (events : List Event)
    (mouseX mouseY : Int) (d : Draws) (g : Game Level Plant Animal) (running : Bool) :
    Game Level Plant Animal × Bool :=
  let s := drainEvents c events { game := g, running := running, mouseDownThisFrame := false }
  let posMouse : Vector2D := ⟨(mouseX : ℚ) / (tileSize : ℚ), (mouseY : ℚ) / (tileSize : ℚ)⟩
  (mouseAction c d posMouse s.game, s.running)

/-! ## `Game::update` and `Game::draw` -/

/-- The second loop of `Game::update`: `animalSelected.update(dT, *this)` for each animal in
collection order.  `before` holds the animals already updated; each update reads the game
as the previous updates left it. -/
def updateAnimals (u : UpdateCollaborators Level Plant Animal) (dT : ℚ) :
    List Animal → List Animal → Game Level Plant Animal → Game Level Plant Animal
  | _, [], g => g
  | before, animalSelected :: rest, g =>
    let updated : Animal := u.animalUpdate animalSelected dT g
    updateAnimals u dT (before ++ [updated]) rest
      { g with listAnimals := before ++ updated :: rest }

/-- Embedding of `Game::update`: every plant is updated with `dT`, then every animal with
`dT` and the game. -/
def update (u : UpdateCollaborators Level Plant Animal) (dT : ℚ)
    (g : Game Level Plant Animal) : Game Level Plant Animal :=
  let g1 : Game Level Plant Animal :=
    { g with listPlants := g.listPlants.map (fun plantSelected => u.plantUpdate plantSelected dT) }
  updateAnimals u dT [] g1.listAnimals g1

/-- Embedding of `Game::draw`: the commands it issues, in order. -/
def draw (tileSize : Int) (g : Game Level Plant Animal) :
    List (DrawCommand Level Plant Animal) :=
  [DrawCommand.setRenderDrawColor 0 0 0 255,
    DrawCommand.renderClear,
    DrawCommand.levelDraw g.level tileSize,
    DrawCommand.setRenderTarget RenderTarget.textureShadows,
    DrawCommand.setRenderDrawColor 0 0 0 0,
    DrawCommand.renderClear,
    DrawCommand.levelDrawShadows g.level tileSize]
  ++ g.listPlants.map (fun plantSelected => DrawCommand.plantDrawShadow plantSelected tileSize)
  ++ g.listAnimals.map (fun animalSelected => DrawCommand.animalDrawShadow animalSelected tileSize)
  ++ [DrawCommand.setRenderTarget RenderTarget.window,
    DrawCommand.renderCopy]
  ++ g.listPlants.map (fun plantSelected => DrawCommand.plantDraw plantSelected tileSize)
  ++ g.listAnimals.map (fun animalSelected => DrawCommand.animalDraw animalSelected tileSize)
  ++ [DrawCommand.renderPresent]

/-- The render target in effect after a command, given the target before it. -/
def DrawCommand.targetAfter (target : RenderTarget) :
    DrawCommand Level Plant Animal → RenderTarget
  | DrawCommand.setRenderTarget newTarget => newTarget
  | _ => target

/-- The render target in effect after a sequence of commands, given the target before. -/
def targetAfterAll (target : RenderTarget) :
    List (DrawCommand Level Plant Animal) → RenderTarget
  | [] => target
  | command :: commands => targetAfterAll (command.targetAfter target) commands

/-- Each command of a sequence paired with the render target in effect when it is issued,
starting from `target`. -/
def withTargets (target : RenderTarget) :
    List (DrawCommand Level Plant Animal) → List (RenderTarget × DrawCommand Level Plant Animal)
  | [] => []
  | command :: commands =>
    (target, command) :: withTargets (command.targetAfter target) commands

/-- The shadow commands: the level's, a plant's or an animal's `drawShadow`. -/
def DrawCommand.isShadow : DrawCommand Level Plant Animal → Bool
  | DrawCommand.levelDrawShadows _ _ => true
  | DrawCommand.plantDrawShadow _ _ => true
  | DrawCommand.animalDrawShadow _ _ => true
  | _ => false

/-- The body commands: a plant's or an animal's `draw`. -/
def DrawCommand.isBody : DrawCommand Level Plant Animal → Bool
  | DrawCommand.plantDraw _ _ => true
  | DrawCommand.animalDraw _ _ => true
  | _ => false

/-- The sequence of `mouseDownStatus` values after each event of a drain. -/
def mouseDownStatusTrace (c : Collaborators Level Plant Animal) :
    List Event → EventLoop Level Plant Animal → List Nat
  | [], _ => []
  | event :: events, s =>
    (handleEvent c event s).game.mouseDownStatus ::
      mouseDownStatusTrace c events (handleEvent c event s)

end Model

/-! ## Selection keys, as the specification names them -/

/-- The numeric keys `1`–`7`, which select a tile type. -/
def tileKeys : List Nat :=
  [SDL_SCANCODE_1, SDL_SCANCODE_2, SDL_SCANCODE_3, SDL_SCANCODE_4, SDL_SCANCODE_5,
    SDL_SCANCODE_6, SDL_SCANCODE_7]

/-- The five keys `Q`, `W`, `E`, `R`, `T`, which select a plant type. -/
def plantKeys : List Nat :=
  [SDL_SCANCODE_Q, SDL_SCANCODE_W, SDL_SCANCODE_E, SDL_SCANCODE_R, SDL_SCANCODE_T]

/-- The three keys `A`, `S`, `D`, which select an animal type. -/
def animalKeys : List Nat :=
  [SDL_SCANCODE_A, SDL_SCANCODE_S, SDL_SCANCODE_D]

/-- The placement mode an event forces according to the specification: a tile key forces
`tiles`, a plant key `plants`, an animal key `animals`, and no other event forces a mode. -/
def forcedMode : Event → Option PlacementMode
  | Event.keyDown scancode =>
    if scancode ∈ tileKeys then some PlacementMode.tiles
    else if scancode ∈ plantKeys then some PlacementMode.plants
    else if scancode ∈ animalKeys then some PlacementMode.animals
    else none
  | _ => none

/-- The mode forced by the last selection key of an event sequence, if there is one. -/
def lastForcedMode : List Event → Option PlacementMode
  | [] => none
  | event :: events =>
    match lastForcedMode events with
    | some mode => some mode
    | none => forcedMode event

/-! ## The game loop's frame time -/

/-- The `dT` of one iteration of the loop in `Game::Game`.  `time1` and `time2` are the tick
counts of the previous and the current `std::chrono::system_clock::now()`, `ticksPerSecond`
the clock's resolution.  The conversion to `duration<float>` divides the `float` of the tick
difference by the `float` of the resolution; the result is capped by `std::min` at the
`float` constant `1.0f / 20.0f`. -/
def dT (ticksPerSecond : Nat) (time1 time2 : Int) : ℚ :=
  let timeDeltaFloat : ℚ :=
    binary32 (binary32 ((time2 - time1 : Int) : ℚ) / binary32 (ticksPerSecond : ℚ))
  min timeDeltaFloat (binary32 (1 / 20))

/-- The loop `while (running) { … }` of `Game::Game`, entered with a window and a renderer
that are not null, over the inputs of successive iterations; it also stops when the inputs
end.  Returns the calls made, in order, each with the game it leaves behind, and the final
game. -/
def gameLoop {Level Plant Animal : Type} (c : Collaborators Level Plant Animal)
    (u : UpdateCollaborators Level Plant Animal) (tileSize : Int) (ticksPerSecond : Nat) :
    List FrameInput → Int → Game Level Plant Animal → Bool →
      List (LoopCall × Game Level Plant Animal) × Game Level Plant Animal
  | [], _, g, _ => ([], g)
  | frame :: frames, time1, g, running =>
    if running then
      let time2 : Int := frame.now
      let frameTime : ℚ := dT ticksPerSecond time1 time2
      let processed := processEvents c tileSize frame.events frame.mouseX frame.mouseY
        frame.draws g running
      let updated := update u frameTime processed.1
      let rest := gameLoop c u tileSize ticksPerSecond frames time2 updated processed.2
      ((LoopCall.processEvents, processed.1) :: (LoopCall.update, updated) ::
        (LoopCall.draw, updated) :: rest.1, rest.2)
    else ([], g)

/-! ## Event sequences, as the specification describes them -/

/-- Whether an event is a termination signal: the quit event or a key-down of Escape. -/
def isQuitSignal : Event → Bool
  | Event.quit => true
  | Event.keyDown scancode => scancode == SDL_SCANCODE_ESCAPE
  | _ => false

/-- The number of loop iterations the specification prescribes for a sequence of frame
inputs: every frame up to and including the first whose events hold a termination signal. -/
def iterations : List FrameInput → Nat
  | [] => 0
  | frame :: frames =>
    if frame.events.any isQuitSignal then 1 else 1 + iterations frames

/-- The last mouse-button event of an event sequence, if there is one. -/
def lastMouseEvent : List Event → Option Event
  | [] => none
  | event :: events =>
    match lastMouseEvent events with
    | some mouseEvent => some mouseEvent
    | none =>
      match event with
      | Event.mouseButtonDown button => some (Event.mouseButtonDown button)
      | Event.mouseButtonUp button => some (Event.mouseButtonUp button)
      | _ => none

/-! ## A concrete instantiation

A small grid world with the shape of the collaborator interface, used to evaluate the model
on explicit inputs.  Tile type `0` is soil and tile type `1` is water; plants need soil,
animals cannot stand in water. -/

/-- A level: the selected tile type and the tiles placed so far, most recent first.  A tile
that was never placed has type `0`. -/
structure GridLevel where
  tileTypeIDSelected : Int
  placed : List (Int × Int × Int)
  deriving DecidableEq

/-- The type of the tile at `(x, y)`. -/
def GridLevel.tileAt (l : GridLevel) (x y : Int) : Int :=
  match l.placed.find? (fun t => t.1 == x && t.2.1 == y) with
  | some t => t.2.2
  | none => 0

/-- A plant of the grid world. -/
structure GridPlant where
  typeID : Int
  pos : Vector2D
  deriving DecidableEq

/-- An animal of the grid world; its body is a circle of radius `1/2`. -/
structure GridAnimal where
  typeID : Int
  pos : Vector2D
  angle : ℚ
  deriving DecidableEq

/-- The collaborators of the grid world. -/
def gridWorld : Collaborators GridLevel GridPlant GridAnimal where
  levelSetTileTypeIDSelected l id := { l with tileTypeIDSelected := id }
  levelPlaceTileTypeIDSelected l x y :=
    { l with placed := (x, y, l.tileTypeIDSelected) :: l.placed }
  plantCheckIfPositionOkForType pos _ g :=
    g.level.tileAt (toInt pos.x) (toInt pos.y) == 0
  plantNew typeID pos := ⟨typeID, pos⟩
  plantCheckOverlapWithMouse p x y := toInt p.pos.x == x && toInt p.pos.y == y
  plantCheckIfTilesUnderOk p l := l.tileAt (toInt p.pos.x) (toInt p.pos.y) == 0
  animalCheckIfPositionOkForType pos _ g :=
    g.level.tileAt (toInt pos.x) (toInt pos.y) != 1
  animalNew typeID pos angle := ⟨typeID, pos, angle⟩
  animalCheckCircleOverlap a p r :=
    decide ((a.pos.x - p.x) ^ 2 + (a.pos.y - p.y) ^ 2 ≤ (1 / 2 + r) ^ 2)
  animalCheckIfTilesUnderOk a l := l.tileAt (toInt a.pos.x) (toInt a.pos.y) != 1

/-- A game of the grid world: water selected, one plant on tile `(3, 1)`, one on tile
`(0, 0)`, one animal on tile `(3, 1)`, no button held. -/
def gridGame : Game GridLevel GridPlant GridAnimal where
  placementModeCurrent := PlacementMode.tiles
  level := ⟨1, []⟩
  listPlants := [⟨0, ⟨7 / 2, 3 / 2⟩⟩, ⟨2, ⟨1 / 2, 1 / 2⟩⟩]
  listAnimals := [⟨1, ⟨13 / 4, 5 / 4⟩, 0⟩]
  plantTypeIDSelected := 0
  animalTypeIDSelected := 1
  mouseDownStatus := 0

/-- Fixed random results for the examples. -/
def gridDraws : Draws := ⟨1 / 4, 3 / 4, 1⟩

/-- The game `gridGame` with the left button held. -/
def gridGameLeft : Game GridLevel GridPlant GridAnimal :=
  { gridGame with mouseDownStatus := SDL_BUTTON_LEFT }

/-- The game `gridGameLeft` in animal mode. -/
def gridGameLeftAnimals : Game GridLevel GridPlant GridAnimal :=
  { gridGameLeft with placementModeCurrent := PlacementMode.animals }

/-- The game `gridGame` after water was placed on tile `(3, 1)`. -/
def gridGameWet : Game GridLevel GridPlant GridAnimal :=
  { gridGame with level := ⟨1, [(3, 1, 1)]⟩ }

/-- An event-loop state of the grid world in animal mode. -/
def gridLoop : EventLoop GridLevel GridPlant GridAnimal :=
  ⟨{ gridGame with placementModeCurrent := PlacementMode.animals }, true, false⟩

/-- Tile type `2` selected with the key `3`, then a button released. -/
def gridReleaseEvents : List Event :=
  [Event.keyDown SDL_SCANCODE_3, Event.mouseButtonUp SDL_BUTTON_LEFT]

/-- A button pressed and released in the same drain. -/
def gridPressReleaseEvents : List Event :=
  [Event.mouseButtonDown SDL_BUTTON_LEFT, Event.mouseButtonUp SDL_BUTTON_LEFT]

/-- The game `gridGame` with the right button held. -/
def gridGameRight : Game GridLevel GridPlant GridAnimal :=
  { gridGame with mouseDownStatus := SDL_BUTTON_RIGHT }

/-! ## Lemmas on the erase loop -/

section Lemmas

variable {Level Plant Animal : Type}

/-- The loop keeps what the iterator has passed and, of the rest, the elements not removed. -/
theorem eraseLoop_eq_append_filter {α : Type} (remove : α → Bool) (xs before : List α) :
    eraseLoop remove before xs = before ++ xs.filter (fun x => !remove x) := by
  induction xs generalizing before with
  | nil => simp [eraseLoop]
  | cons x rest ih =>
    by_cases hx : remove x = true
    · simp [eraseLoop, hx, ih]
    · simp [eraseLoop, hx, ih]

/-- Started at `begin`, the loop computes a filter. -/
theorem eraseLoop_nil_eq_filter {α : Type} (remove : α → Bool) (xs : List α) :
    eraseLoop remove [] xs = xs.filter (fun x => !remove x) := by
  simp [eraseLoop_eq_append_filter]

/-- The tile sweep of the plants as a filter. -/
theorem removePlantsIfTilesChanged_listPlants (c : Collaborators Level Plant Animal)
    (g : Game Level Plant Animal) :
    (removePlantsIfTilesChanged c g).listPlants =
      g.listPlants.filter (fun p => c.plantCheckIfTilesUnderOk p g.level) := by
  simp only [removePlantsIfTilesChanged, eraseLoop_nil_eq_filter]
  congr 1
  funext p
  cases c.plantCheckIfTilesUnderOk p g.level <;> rfl

/-- The tile sweep of the animals as a filter. -/
theorem removeAnimalsIfTilesChanged_listAnimals (c : Collaborators Level Plant Animal)
    (g : Game Level Plant Animal) :
    (removeAnimalsIfTilesChanged c g).listAnimals =
      g.listAnimals.filter (fun a => c.animalCheckIfTilesUnderOk a g.level) := by
  simp only [removeAnimalsIfTilesChanged, eraseLoop_nil_eq_filter]
  congr 1
  funext a
  cases c.animalCheckIfTilesUnderOk a g.level <;> rfl

/-- The click removal of the plants as a filter. -/
theorem removePlantsAtMousePosition_listPlants (c : Collaborators Level Plant Animal)
    (posMouse : Vector2D) (g : Game Level Plant Animal) :
    (removePlantsAtMousePosition c posMouse g).listPlants =
      g.listPlants.filter
        (fun p => !c.plantCheckOverlapWithMouse p (toInt posMouse.x) (toInt posMouse.y)) := by
  simp only [removePlantsAtMousePosition, eraseLoop_nil_eq_filter]

/-- The click removal of the animals as a filter. -/
theorem removeAnimalsAtMousePosition_listAnimals (c : Collaborators Level Plant Animal)
    (posMouse : Vector2D) (g : Game Level Plant Animal) :
    (removeAnimalsAtMousePosition c posMouse g).listAnimals =
      g.listAnimals.filter (fun a => !c.animalCheckCircleOverlap a posMouse 0) := by
  simp only [removeAnimalsAtMousePosition, eraseLoop_nil_eq_filter]

/-- The left-button action in tile mode, unfolded. -/
theorem mouseAction_left_tiles (c : Collaborators Level Plant Animal) (d : Draws)
    (posMouse : Vector2D) (g : Game Level Plant Animal)
    (hLeft : g.mouseDownStatus = SDL_BUTTON_LEFT)
    (hMode : g.placementModeCurrent = PlacementMode.tiles) :
    mouseAction c d posMouse g =
      removeAnimalsIfTilesChanged c (removePlantsIfTilesChanged c
        { g with level :=
            c.levelPlaceTileTypeIDSelected g.level (toInt posMouse.x) (toInt posMouse.y) }) := by
  simp [mouseAction, hLeft, hMode, SDL_BUTTON_LEFT]

/-- The right-button action, unfolded. -/
theorem mouseAction_right (c : Collaborators Level Plant Animal) (d : Draws)
    (posMouse : Vector2D) (g : Game Level Plant Animal)
    (hRight : g.mouseDownStatus = SDL_BUTTON_RIGHT) :
    mouseAction c d posMouse g =
      removeAnimalsAtMousePosition c posMouse (removePlantsAtMousePosition c posMouse g) := by
  simp [mouseAction, hRight, SDL_BUTTON_RIGHT, SDL_BUTTON_LEFT]

end Lemmas

/-! ## The mouse latch -/

section Latch

variable {Level Plant Animal : Type}

/-- C1, as the code has it: a button-down of the left button sets `mouseDownStatus` to left
and a button-down of the right button sets it to right whatever the status was before (the
last press wins), a button-down of any other button leaves it unchanged, a button-up sets it
to none, and no other event changes it.  From any state the sequence press-left, press-right,
release, press-right yields the statuses left, right, none, right. -/
theorem mouseDownStatus_transitions (c : Collaborators Level Plant Animal)
    (s : EventLoop Level Plant Animal) :
    (∀ button : Nat,
      (handleEvent c (Event.mouseButtonDown button) s).game.mouseDownStatus =
        if button = SDL_BUTTON_LEFT then SDL_BUTTON_LEFT
        else if button = SDL_BUTTON_RIGHT then SDL_BUTTON_RIGHT
        else s.game.mouseDownStatus) ∧
    (∀ button : Nat, (handleEvent c (Event.mouseButtonUp button) s).game.mouseDownStatus = 0) ∧
    (∀ scancode : Nat,
      (handleEvent c (Event.keyDown scancode) s).game.mouseDownStatus =
        s.game.mouseDownStatus) ∧
    (handleEvent c Event.quit s).game.mouseDownStatus = s.game.mouseDownStatus ∧
    (handleEvent c Event.other s).game.mouseDownStatus = s.game.mouseDownStatus ∧
    mouseDownStatusTrace c
        [Event.mouseButtonDown SDL_BUTTON_LEFT, Event.mouseButtonDown SDL_BUTTON_RIGHT,
          Event.mouseButtonUp SDL_BUTTON_LEFT, Event.mouseButtonDown SDL_BUTTON_RIGHT] s =
      [SDL_BUTTON_LEFT, SDL_BUTTON_RIGHT, 0, SDL_BUTTON_RIGHT] := by
  refine ⟨?_, ?_, ?_, ?_, ?_, ?_⟩
  · intro button
    by_cases hl : button = SDL_BUTTON_LEFT
    · simp [handleEvent, hl]
    · by_cases hr : button = SDL_BUTTON_RIGHT
      · simp [handleEvent, hr, SDL_BUTTON_LEFT, SDL_BUTTON_RIGHT]
      · simp [handleEvent, hl, hr]
  · intro button
    simp [handleEvent]
  · intro scancode
    simp only [handleEvent, handleKeyDown, setPlantTypeIDSelected, setAnimalTypeIDSelected]
    repeat' split
    all_goals rfl
  · simp [handleEvent]
  · simp [handleEvent]
  · simp [mouseDownStatusTrace, handleEvent, SDL_BUTTON_LEFT, SDL_BUTTON_RIGHT]

/-- C1, counterexample: with the left button held, a button-down of the right button changes
`mouseDownStatus` from left to right, and the press-left, press-right, release, press-right
sequence does not yield left, left, none, right. -/
theorem second_press_overrides_latch :
    (handleEvent gridWorld (Event.mouseButtonDown SDL_BUTTON_RIGHT)
        ⟨{ gridGame with mouseDownStatus := SDL_BUTTON_LEFT }, true, false⟩).game.mouseDownStatus
      ≠ SDL_BUTTON_LEFT ∧
    mouseDownStatusTrace gridWorld
        [Event.mouseButtonDown SDL_BUTTON_LEFT, Event.mouseButtonDown SDL_BUTTON_RIGHT,
          Event.mouseButtonUp SDL_BUTTON_LEFT, Event.mouseButtonDown SDL_BUTTON_RIGHT]
        ⟨gridGame, true, false⟩
      ≠ [SDL_BUTTON_LEFT, SDL_BUTTON_LEFT, 0, SDL_BUTTON_RIGHT] := by
  constructor <;> decide

end Latch

/-! ## Sweeps and removal -/

section Removal

variable {Level Plant Animal : Type}

/-- C2: with the left button latched in tile mode, the action places the tile and then
sweeps: every plant and every animal left in the collections passes `checkIfTilesUnderOk`
against the updated level, every entity that passes it against the updated level is still
present, and the collections are exactly the passing entities in their previous order. -/
theorem sweep_after_tile_placement (c : Collaborators Level Plant Animal) (d : Draws)
    (posMouse : Vector2D) (g : Game Level Plant Animal)
    (hLeft : g.mouseDownStatus = SDL_BUTTON_LEFT)
    (hMode : g.placementModeCurrent = PlacementMode.tiles) :
    (mouseAction c d posMouse g).level =
        c.levelPlaceTileTypeIDSelected g.level (toInt posMouse.x) (toInt posMouse.y) ∧
    (∀ p ∈ (mouseAction c d posMouse g).listPlants,
        c.plantCheckIfTilesUnderOk p (mouseAction c d posMouse g).level = true) ∧
    (∀ a ∈ (mouseAction c d posMouse g).listAnimals,
        c.animalCheckIfTilesUnderOk a (mouseAction c d posMouse g).level = true) ∧
    (∀ p ∈ g.listPlants,
        c.plantCheckIfTilesUnderOk p (mouseAction c d posMouse g).level = true →
          p ∈ (mouseAction c d posMouse g).listPlants) ∧
    (∀ a ∈ g.listAnimals,
        c.animalCheckIfTilesUnderOk a (mouseAction c d posMouse g).level = true →
          a ∈ (mouseAction c d posMouse g).listAnimals) ∧
    (mouseAction c d posMouse g).listPlants =
        g.listPlants.filter
          (fun p => c.plantCheckIfTilesUnderOk p (mouseAction c d posMouse g).level) ∧
    (mouseAction c d posMouse g).listAnimals =
        g.listAnimals.filter
          (fun a => c.animalCheckIfTilesUnderOk a (mouseAction c d posMouse g).level) := by
  have hLevel : (mouseAction c d posMouse g).level =
      c.levelPlaceTileTypeIDSelected g.level (toInt posMouse.x) (toInt posMouse.y) := by
    rw [mouseAction_left_tiles c d posMouse g hLeft hMode]
    rfl
  have hPlants : (mouseAction c d posMouse g).listPlants =
      g.listPlants.filter
        (fun p => c.plantCheckIfTilesUnderOk p (mouseAction c d posMouse g).level) := by
    rw [hLevel, mouseAction_left_tiles c d posMouse g hLeft hMode]
    show (removePlantsIfTilesChanged c _).listPlants = _
    rw [removePlantsIfTilesChanged_listPlants]
  have hAnimals : (mouseAction c d posMouse g).listAnimals =
      g.listAnimals.filter
        (fun a => c.animalCheckIfTilesUnderOk a (mouseAction c d posMouse g).level) := by
    rw [hLevel, mouseAction_left_tiles c d posMouse g hLeft hMode]
    rw [removeAnimalsIfTilesChanged_listAnimals]
    rfl
  refine ⟨hLevel, ?_, ?_, ?_, ?_, hPlants, hAnimals⟩
  · intro p hp
    rw [hPlants] at hp
    exact (List.mem_filter.mp hp).2
  · intro a ha
    rw [hAnimals] at ha
    exact (List.mem_filter.mp ha).2
  · intro p hp hok
    rw [hPlants]
    exact List.mem_filter.mpr ⟨hp, hok⟩
  · intro a ha hok
    rw [hAnimals]
    exact List.mem_filter.mpr ⟨ha, hok⟩

/-- C2, instance: water placed on tile `(3, 1)` of the grid world with the left button held. -/
theorem sweep_after_tile_placement_witness :
    gridGameLeft.mouseDownStatus = SDL_BUTTON_LEFT ∧
    gridGameLeft.placementModeCurrent = PlacementMode.tiles ∧
    (mouseAction gridWorld gridDraws ⟨25 / 8, 9 / 8⟩ gridGameLeft).listPlants =
      gridGameLeft.listPlants.filter
        (fun p => gridWorld.plantCheckIfTilesUnderOk p
          (mouseAction gridWorld gridDraws ⟨25 / 8, 9 / 8⟩ gridGameLeft).level) :=
  ⟨rfl, rfl,
    (sweep_after_tile_placement gridWorld gridDraws ⟨25 / 8, 9 / 8⟩ gridGameLeft
      rfl rfl).2.2.2.2.2.1⟩

/-- C4: if no plant overlaps the integer tile under the cursor and no animal's circle
contains the cursor, the right-click removal (plants, then animals) returns the game
unchanged, so both collections keep their length, contents and order; this is what the
right-button action of `processEvents` does. -/
theorem right_click_without_overlap_unchanged (c : Collaborators Level Plant Animal)
    (d : Draws) (posMouse : Vector2D) (g : Game Level Plant Animal)
    (hPlants : ∀ p ∈ g.listPlants,
      c.plantCheckOverlapWithMouse p (toInt posMouse.x) (toInt posMouse.y) = false)
    (hAnimals : ∀ a ∈ g.listAnimals, c.animalCheckCircleOverlap a posMouse 0 = false) :
    removeAnimalsAtMousePosition c posMouse (removePlantsAtMousePosition c posMouse g) = g ∧
    (g.mouseDownStatus = SDL_BUTTON_RIGHT →
      (mouseAction c d posMouse g).listPlants = g.listPlants ∧
      (mouseAction c d posMouse g).listAnimals = g.listAnimals) := by
  have hP : removePlantsAtMousePosition c posMouse g = g := by
    have h := removePlantsAtMousePosition_listPlants c posMouse g
    have hf : g.listPlants.filter
        (fun p => !c.plantCheckOverlapWithMouse p (toInt posMouse.x) (toInt posMouse.y)) =
        g.listPlants := by
      apply List.filter_eq_self.mpr
      intro p hp
      simp [hPlants p hp]
    rw [hf] at h
    cases g
    simp only [removePlantsAtMousePosition] at h ⊢
    simp only [h]
  have hA : removeAnimalsAtMousePosition c posMouse g = g := by
    have h := removeAnimalsAtMousePosition_listAnimals c posMouse g
    have hf : g.listAnimals.filter (fun a => !c.animalCheckCircleOverlap a posMouse 0) =
        g.listAnimals := by
      apply List.filter_eq_self.mpr
      intro a ha
      simp [hAnimals a ha]
    rw [hf] at h
    cases g
    simp only [removeAnimalsAtMousePosition] at h ⊢
    simp only [h]
  have hBoth :
      removeAnimalsAtMousePosition c posMouse (removePlantsAtMousePosition c posMouse g) = g := by
    rw [hP, hA]
  refine ⟨hBoth, ?_⟩
  intro hRight
  rw [mouseAction_right c d posMouse g hRight, hBoth]
  exact ⟨rfl, rfl⟩

end Removal

/-- C4, instance: a right click on tile `(5, 5)` of the grid world, where nothing stands. -/
theorem right_click_without_overlap_unchanged_witness :
    (∀ p ∈ gridGameRight.listPlants,
      gridWorld.plantCheckOverlapWithMouse p (toInt (11 / 2 : ℚ)) (toInt (11 / 2 : ℚ)) = false) ∧
    (∀ a ∈ gridGameRight.listAnimals,
      gridWorld.animalCheckCircleOverlap a ⟨11 / 2, 11 / 2⟩ 0 = false) ∧
    removeAnimalsAtMousePosition gridWorld ⟨11 / 2, 11 / 2⟩
        (removePlantsAtMousePosition gridWorld ⟨11 / 2, 11 / 2⟩ gridGameRight) =
      gridGameRight :=
  ⟨by norm_num [gridGameRight, gridGame, gridWorld, toInt],
    by norm_num [gridGameRight, gridGame, gridWorld],
    (right_click_without_overlap_unchanged gridWorld gridDraws ⟨11 / 2, 11 / 2⟩ gridGameRight
      (by norm_num [gridGameRight, gridGame, gridWorld, toInt])
      (by norm_num [gridGameRight, gridGame, gridWorld])).1⟩

/-! ## Selection keys -/

section Selection

variable {Level Plant Animal : Type}

/-- The mode after one event is the mode the event forces, or the previous mode. -/
theorem handleEvent_placementModeCurrent (c : Collaborators Level Plant Animal) (event : Event)
    (s : EventLoop Level Plant Animal) :
    (handleEvent c event s).game.placementModeCurrent =
      (forcedMode event).getD s.game.placementModeCurrent := by
  cases event with
  | quit => rfl
  | mouseButtonDown button =>
    simp only [handleEvent, forcedMode]
    repeat' split
    all_goals rfl
  | mouseButtonUp button => rfl
  | other => rfl
  | keyDown scancode =>
    by_cases h : scancode ∈ SDL_SCANCODE_ESCAPE :: (tileKeys ++ plantKeys ++ animalKeys)
    · simp only [tileKeys, plantKeys, animalKeys, List.cons_append, List.nil_append,
        List.mem_cons, List.mem_singleton, List.not_mem_nil, or_false] at h
      rcases h with h | h | h | h | h | h | h | h | h | h | h | h | h | h | h | h <;>
        subst h <;> rfl
    · simp only [tileKeys, plantKeys, animalKeys, List.cons_append, List.nil_append,
        List.mem_cons, List.mem_singleton, List.not_mem_nil, or_false, not_or] at h
      obtain ⟨h0, h1, h2, h3, h4, h5, h6, h7, h8, h9, h10, h11, h12, h13, h14, h15⟩ := h
      simp [handleEvent, handleKeyDown, forcedMode, tileKeys, plantKeys, animalKeys,
        h0, h1, h2, h3, h4, h5, h6, h7, h8, h9, h10, h11, h12, h13, h14, h15]

/-- C6: a key-down of a tile key sets the mode to tiles, of a plant key to plants, of an
animal key to animals, whatever the mode was; and after draining any event sequence the mode
is the one forced by the last selection key of the sequence, or the prior mode if the
sequence has no selection key. -/
theorem mode_forced_by_selection_key (c : Collaborators Level Plant Animal)
    (s : EventLoop Level Plant Animal) :
    (∀ scancode ∈ tileKeys,
      (handleEvent c (Event.keyDown scancode) s).game.placementModeCurrent =
        PlacementMode.tiles) ∧
    (∀ scancode ∈ plantKeys,
      (handleEvent c (Event.keyDown scancode) s).game.placementModeCurrent =
        PlacementMode.plants) ∧
    (∀ scancode ∈ animalKeys,
      (handleEvent c (Event.keyDown scancode) s).game.placementModeCurrent =
        PlacementMode.animals) ∧
    (∀ events : List Event,
      (drainEvents c events s).game.placementModeCurrent =
        (lastForcedMode events).getD s.game.placementModeCurrent) := by
  refine ⟨?_, ?_, ?_, ?_⟩
  · intro scancode h
    rw [handleEvent_placementModeCurrent]
    simp [forcedMode, h]
  · intro scancode h
    have hT : scancode ∉ tileKeys := by
      revert h
      simp only [tileKeys, plantKeys, List.mem_cons, List.mem_singleton, List.not_mem_nil,
        or_false, SDL_SCANCODE_1, SDL_SCANCODE_2, SDL_SCANCODE_3, SDL_SCANCODE_4,
        SDL_SCANCODE_5, SDL_SCANCODE_6, SDL_SCANCODE_7, SDL_SCANCODE_Q, SDL_SCANCODE_W,
        SDL_SCANCODE_E, SDL_SCANCODE_R, SDL_SCANCODE_T]
      omega
    rw [handleEvent_placementModeCurrent]
    simp [forcedMode, h, hT]
  · intro scancode h
    have hT : scancode ∉ tileKeys := by
      revert h
      simp only [tileKeys, animalKeys, List.mem_cons, List.mem_singleton, List.not_mem_nil,
        or_false, SDL_SCANCODE_1, SDL_SCANCODE_2, SDL_SCANCODE_3, SDL_SCANCODE_4,
        SDL_SCANCODE_5, SDL_SCANCODE_6, SDL_SCANCODE_7, SDL_SCANCODE_A, SDL_SCANCODE_S,
        SDL_SCANCODE_D]
      omega
    have hP : scancode ∉ plantKeys := by
      revert h
      simp only [plantKeys, animalKeys, List.mem_cons, List.mem_singleton, List.not_mem_nil,
        or_false, SDL_SCANCODE_Q, SDL_SCANCODE_W, SDL_SCANCODE_E, SDL_SCANCODE_R,
        SDL_SCANCODE_T, SDL_SCANCODE_A, SDL_SCANCODE_S, SDL_SCANCODE_D]
      omega
    rw [handleEvent_placementModeCurrent]
    simp [forcedMode, h, hT, hP]
  · intro events
    induction events generalizing s with
    | nil => rfl
    | cons event rest ih =>
      have hstep : drainEvents c (event :: rest) s = drainEvents c rest (handleEvent c event s) :=
        rfl
      rw [hstep, ih, handleEvent_placementModeCurrent]
      simp only [lastForcedMode]
      cases lastForcedMode rest <;> rfl

/-- C6, instance: the key `3` pressed in animal mode of the grid world. -/
theorem mode_forced_by_selection_key_witness :
    SDL_SCANCODE_3 ∈ tileKeys ∧
    (handleEvent gridWorld (Event.keyDown SDL_SCANCODE_3) gridLoop).game.placementModeCurrent =
      PlacementMode.tiles :=
  ⟨by decide, (mode_forced_by_selection_key gridWorld gridLoop).1 SDL_SCANCODE_3 (by decide)⟩

/-- C7: handling a tile key leaves `plantTypeIDSelected` and `animalTypeIDSelected`
unchanged; handling a plant key leaves `animalTypeIDSelected` and the level unchanged;
handling an animal key leaves `plantTypeIDSelected` and the level unchanged; and no key-down
event changes `mouseDownStatus`, `listPlants` or `listAnimals`. -/
theorem selection_key_frame (c : Collaborators Level Plant Animal)
    (s : EventLoop Level Plant Animal) :
    (∀ scancode ∈ tileKeys,
      (handleEvent c (Event.keyDown scancode) s).game.plantTypeIDSelected =
          s.game.plantTypeIDSelected ∧
      (handleEvent c (Event.keyDown scancode) s).game.animalTypeIDSelected =
          s.game.animalTypeIDSelected) ∧
    (∀ scancode ∈ plantKeys,
      (handleEvent c (Event.keyDown scancode) s).game.animalTypeIDSelected =
          s.game.animalTypeIDSelected ∧
      (handleEvent c (Event.keyDown scancode) s).game.level = s.game.level) ∧
    (∀ scancode ∈ animalKeys,
      (handleEvent c (Event.keyDown scancode) s).game.plantTypeIDSelected =
          s.game.plantTypeIDSelected ∧
      (handleEvent c (Event.keyDown scancode) s).game.level = s.game.level) ∧
    (∀ scancode : Nat,
      (handleEvent c (Event.keyDown scancode) s).game.mouseDownStatus =
          s.game.mouseDownStatus ∧
      (handleEvent c (Event.keyDown scancode) s).game.listPlants = s.game.listPlants ∧
      (handleEvent c (Event.keyDown scancode) s).game.listAnimals = s.game.listAnimals) := by
  refine ⟨?_, ?_, ?_, ?_⟩
  · intro scancode h
    simp only [tileKeys, List.mem_cons, List.mem_singleton, List.not_mem_nil, or_false] at h
    rcases h with h | h | h | h | h | h | h <;> subst h <;> exact ⟨rfl, rfl⟩
  · intro scancode h
    simp only [plantKeys, List.mem_cons, List.mem_singleton, List.not_mem_nil, or_false] at h
    rcases h with h | h | h | h | h <;> subst h <;> exact ⟨rfl, rfl⟩
  · intro scancode h
    simp only [animalKeys, List.mem_cons, List.mem_singleton, List.not_mem_nil, or_false] at h
    rcases h with h | h | h <;> subst h <;> exact ⟨rfl, rfl⟩
  · intro scancode
    simp only [handleEvent, handleKeyDown, setPlantTypeIDSelected, setAnimalTypeIDSelected]
    repeat' split
    all_goals exact ⟨rfl, rfl, rfl⟩

/-- C7, instance: the key `W` pressed in the grid world keeps the selected animal type and
the level. -/
theorem selection_key_frame_witness :
    SDL_SCANCODE_W ∈ plantKeys ∧
    (handleEvent gridWorld (Event.keyDown SDL_SCANCODE_W) gridLoop).game.animalTypeIDSelected =
      gridLoop.game.animalTypeIDSelected ∧
    (handleEvent gridWorld (Event.keyDown SDL_SCANCODE_W) gridLoop).game.level =
      gridLoop.game.level :=
  ⟨by decide, (selection_key_frame gridWorld gridLoop).2.1 SDL_SCANCODE_W (by decide)⟩

end Selection

/-! ## Placement -/

section Placement

variable {Level Plant Animal : Type}

/-- C8: with the left button latched in animal mode, if `Animal::checkIfPositionOkForType`
allows the cursor position for the selected type, the action appends exactly one animal to
the end of `listAnimals`, constructed from the selected type, the cursor position itself and
the angle returned by `randAngleRad`; `listPlants` is unchanged. -/
theorem accepted_animal_placement (c : Collaborators Level Plant Animal) (d : Draws)
    (posMouse : Vector2D) (g : Game Level Plant Animal)
    (hLeft : g.mouseDownStatus = SDL_BUTTON_LEFT)
    (hMode : g.placementModeCurrent = PlacementMode.animals)
    (hOk : c.animalCheckIfPositionOkForType posMouse g.animalTypeIDSelected g = true) :
    (mouseAction c d posMouse g).listAnimals =
        g.listAnimals ++ [c.animalNew g.animalTypeIDSelected posMouse d.randAngleRad] ∧
    (mouseAction c d posMouse g).listPlants = g.listPlants := by
  simp [mouseAction, hLeft, hMode, SDL_BUTTON_LEFT, addAnimal, hOk]

/-- C8, instance: animal type `1` placed at tile-space position `(4.5, 2.5)` of the grid
world; the new last animal has type `1`, position `(4.5, 2.5)` and the drawn angle. -/
theorem accepted_animal_placement_witness :
    gridGameLeftAnimals.mouseDownStatus = SDL_BUTTON_LEFT ∧
    gridGameLeftAnimals.placementModeCurrent = PlacementMode.animals ∧
    gridWorld.animalCheckIfPositionOkForType ⟨9 / 2, 5 / 2⟩
        gridGameLeftAnimals.animalTypeIDSelected gridGameLeftAnimals = true ∧
    (mouseAction gridWorld gridDraws ⟨9 / 2, 5 / 2⟩ gridGameLeftAnimals).listAnimals =
      gridGameLeftAnimals.listAnimals ++ [⟨1, ⟨9 / 2, 5 / 2⟩, gridDraws.randAngleRad⟩] :=
  ⟨rfl, rfl, rfl,
    (accepted_animal_placement gridWorld gridDraws ⟨9 / 2, 5 / 2⟩ gridGameLeftAnimals
      rfl rfl rfl).1⟩

/-- C9: a denied placement returns the game unchanged, for plants and for animals; the
length of `listPlants` after `addPlant` is the previous length plus one if the plant
predicate allows and the previous length otherwise, likewise `listAnimals` after
`addAnimal`; `addPlant` never changes `listAnimals` and `addAnimal` never changes
`listPlants`. -/
theorem denied_placement_does_nothing (c : Collaborators Level Plant Animal)
    (randX randY randAngle : ℚ) (posMouse : Vector2D) (g : Game Level Plant Animal) :
    (c.plantCheckIfPositionOkForType (addPlantPos randX randY posMouse)
        g.plantTypeIDSelected g = false →
      addPlant c randX randY posMouse g = g) ∧
    (c.animalCheckIfPositionOkForType posMouse g.animalTypeIDSelected g = false →
      addAnimal c randAngle posMouse g = g) ∧
    (addPlant c randX randY posMouse g).listPlants.length =
      g.listPlants.length +
        (if c.plantCheckIfPositionOkForType (addPlantPos randX randY posMouse)
            g.plantTypeIDSelected g = true then 1 else 0) ∧
    (addAnimal c randAngle posMouse g).listAnimals.length =
      g.listAnimals.length +
        (if c.animalCheckIfPositionOkForType posMouse g.animalTypeIDSelected g = true
          then 1 else 0) ∧
    (addPlant c randX randY posMouse g).listAnimals = g.listAnimals ∧
    (addAnimal c randAngle posMouse g).listPlants = g.listPlants := by
  refine ⟨?_, ?_, ?_, ?_, ?_, ?_⟩
  · intro h
    simp [addPlant, h]
  · intro h
    simp [addAnimal, h]
  · by_cases h : c.plantCheckIfPositionOkForType (addPlantPos randX randY posMouse)
        g.plantTypeIDSelected g = true
    · simp [addPlant, h]
    · simp [addPlant, h]
  · by_cases h : c.animalCheckIfPositionOkForType posMouse g.animalTypeIDSelected g = true
    · simp [addAnimal, h]
    · simp [addAnimal, h]
  · simp only [addPlant]
    split <;> rfl
  · simp only [addAnimal]
    split <;> rfl

/-- C9, instance: a plant requested on the water tile `(3, 1)` of the grid world is denied. -/
theorem denied_placement_does_nothing_witness :
    gridWorld.plantCheckIfPositionOkForType (addPlantPos (1 / 4) (3 / 4) ⟨25 / 8, 9 / 8⟩)
        gridGameWet.plantTypeIDSelected gridGameWet = false ∧
    addPlant gridWorld (1 / 4) (3 / 4) ⟨25 / 8, 9 / 8⟩ gridGameWet = gridGameWet :=
  ⟨by norm_num [gridWorld, gridGameWet, gridGame, addPlantPos, toInt, GridLevel.tileAt],
    (denied_placement_does_nothing gridWorld (1 / 4) (3 / 4) 0 ⟨25 / 8, 9 / 8⟩ gridGameWet).1
      (by norm_num [gridWorld, gridGameWet, gridGame, addPlantPos, toInt, GridLevel.tileAt])⟩

end Placement

/-! ## Lemmas on binary32 rounding -/

/-- Rounding to an integer moves a value by at most one half. -/
theorem roundHalfEven_sub_le (x : ℚ) : |(roundHalfEven x : ℚ) - x| ≤ 1 / 2 := by
  have h1 : (⌊x⌋ : ℚ) ≤ x := Int.floor_le x
  have h2 : x < (⌊x⌋ : ℚ) + 1 := Int.lt_floor_add_one x
  unfold roundHalfEven
  split_ifs with ha hb hc
  · rw [abs_le]; constructor <;> linarith
  · rw [abs_le]; push_cast; constructor <;> linarith
  · rw [abs_le]; constructor <;> linarith
  · rw [abs_le]; push_cast; constructor <;> linarith

/-- An integer is its own rounding. -/
theorem roundHalfEven_intCast (n : Int) : roundHalfEven (n : ℚ) = n := by
  simp [roundHalfEven]

/-- A value of at least one rounds to a positive integer. -/
theorem roundHalfEven_pos (x : ℚ) (h : 1 ≤ x) : 1 ≤ roundHalfEven x := by
  have h1 := abs_le.mp (roundHalfEven_sub_le x)
  have : (0 : ℚ) < (roundHalfEven x : ℚ) := by linarith [h1.1]
  have h0 : 0 < roundHalfEven x := by exact_mod_cast this
  omega

/-- A value of at most minus one rounds to a negative integer. -/
theorem roundHalfEven_neg (x : ℚ) (h : x ≤ -1) : roundHalfEven x ≤ -1 := by
  have h1 := abs_le.mp (roundHalfEven_sub_le x)
  have : (roundHalfEven x : ℚ) < 0 := by linarith [h1.2]
  have h0 : roundHalfEven x < 0 := by exact_mod_cast this
  omega

/-- A non-zero value is at least the power of two of its exponent. -/
theorem zpow_log_le_abs (q : ℚ) (h : q ≠ 0) : (2 : ℚ) ^ Int.log 2 |q| ≤ |q| := by
  have := Int.zpow_log_le_self (b := 2) (r := |q|) (by norm_num) (abs_pos.mpr h)
  simpa using this

/-- A value is below the next power of two after its exponent. -/
theorem abs_lt_zpow_log_succ (q : ℚ) : |q| < (2 : ℚ) ^ (Int.log 2 |q| + 1) := by
  have := Int.lt_zpow_succ_log_self (b := 2) (by norm_num) |q|
  simpa using this

/-- The exponent of a value lying in a known binade. -/
theorem log_abs_eq (q : ℚ) (e : Int) (hLow : (2 : ℚ) ^ e ≤ |q|)
    (hHigh : |q| < (2 : ℚ) ^ (e + 1)) :
    Int.log 2 |q| = e := by
  have hpos : 0 < |q| := lt_of_lt_of_le (by positivity) hLow
  have h1 : e ≤ Int.log 2 |q| := by
    have := (Int.zpow_le_iff_le_log (b := 2) (by norm_num) hpos (x := e)).mp (by simpa using hLow)
    exact this
  have h2 : Int.log 2 |q| < e + 1 := by
    have := (Int.lt_zpow_iff_log_lt (b := 2) (by norm_num) hpos (x := e + 1)).mp (by simpa using hHigh)
    exact this
  omega

/-- The rounding of a value whose binade is known. -/
theorem binary32_of_binade (q : ℚ) (e : Int) (hLow : (2 : ℚ) ^ e ≤ |q|)
    (hHigh : |q| < (2 : ℚ) ^ (e + 1)) :
    binary32 q = (roundHalfEven (q / (2 : ℚ) ^ (e - 23)) : ℚ) * (2 : ℚ) ^ (e - 23) := by
  have hpos : 0 < |q| := lt_of_lt_of_le (by positivity) hLow
  have hne : q ≠ 0 := abs_pos.mp hpos
  simp only [binary32, hne, if_false, log_abs_eq q e hLow hHigh]

/-- Relative error of the rounding: at most `2^-24`. -/
theorem binary32_sub_le (q : ℚ) : |binary32 q - q| ≤ |q| / 16777216 := by
  by_cases h : q = 0
  · simp [binary32, h]
  · simp only [binary32, h, if_false]
    set e := Int.log 2 |q| with he
    have hulp : (0 : ℚ) < (2 : ℚ) ^ (e - 23) := by positivity
    have hr := roundHalfEven_sub_le (q / (2 : ℚ) ^ (e - 23))
    have heq : (roundHalfEven (q / (2 : ℚ) ^ (e - 23)) : ℚ) * (2 : ℚ) ^ (e - 23) - q =
        ((roundHalfEven (q / (2 : ℚ) ^ (e - 23)) : ℚ) - q / (2 : ℚ) ^ (e - 23)) *
          (2 : ℚ) ^ (e - 23) := by
      field_simp
    rw [heq, abs_mul, abs_of_pos hulp]
    have hle := zpow_log_le_abs q h
    rw [← he] at hle
    have hsplit : (2 : ℚ) ^ e = (2 : ℚ) ^ (e - 23) * 8388608 := by
      rw [show e = (e - 23) + 23 by ring, zpow_add₀ (by norm_num : (2 : ℚ) ≠ 0)]
      norm_num
    have : |(roundHalfEven (q / (2 : ℚ) ^ (e - 23)) : ℚ) - q / (2 : ℚ) ^ (e - 23)| *
        (2 : ℚ) ^ (e - 23) ≤ 1 / 2 * (2 : ℚ) ^ (e - 23) :=
      mul_le_mul_of_nonneg_right hr hulp.le
    linarith

/-- Rounding keeps non-negative values non-negative. -/
theorem binary32_nonneg (q : ℚ) (h : 0 ≤ q) : 0 ≤ binary32 q := by
  have := abs_le.mp (binary32_sub_le q)
  rw [abs_of_nonneg h] at this
  linarith [this.1]

/-- Rounding keeps positive values positive. -/
theorem binary32_pos (q : ℚ) (h : 0 < q) : 0 < binary32 q := by
  have := abs_le.mp (binary32_sub_le q)
  rw [abs_of_pos h] at this
  linarith [this.1]

/-- Rounding keeps negative values negative. -/
theorem binary32_neg (q : ℚ) (h : q < 0) : binary32 q < 0 := by
  have := abs_le.mp (binary32_sub_le q)
  rw [abs_of_neg h] at this
  linarith [this.2]

/-- A value with a 24-bit significand is its own rounding. -/
theorem binary32_of_significand (m e : Int) (hLow : 8388608 ≤ |m|) (hHigh : |m| < 16777216) :
    binary32 ((m : ℚ) * (2 : ℚ) ^ (e - 23)) = (m : ℚ) * (2 : ℚ) ^ (e - 23) := by
  have hulp : (0 : ℚ) < (2 : ℚ) ^ (e - 23) := by positivity
  have habs : |(m : ℚ) * (2 : ℚ) ^ (e - 23)| = (|m| : ℚ) * (2 : ℚ) ^ (e - 23) := by
    rw [abs_mul, abs_of_pos hulp]
  have hsplit : (2 : ℚ) ^ e = 8388608 * (2 : ℚ) ^ (e - 23) := by
    rw [show e = (e - 23) + 23 by ring, zpow_add₀ (by norm_num : (2 : ℚ) ≠ 0)]
    norm_num
    ring_nf
  have hsplit2 : (2 : ℚ) ^ (e + 1) = 16777216 * (2 : ℚ) ^ (e - 23) := by
    rw [show e + 1 = (e - 23) + 24 by ring, zpow_add₀ (by norm_num : (2 : ℚ) ≠ 0)]
    norm_num
    ring_nf
  have hL : (8388608 : ℚ) ≤ (|m| : ℚ) := by exact_mod_cast hLow
  have hH : (|m| : ℚ) < 16777216 := by exact_mod_cast hHigh
  rw [binary32_of_binade _ e]
  · rw [mul_div_assoc, div_self hulp.ne', mul_one, roundHalfEven_intCast]
  · rw [habs, hsplit]
    exact mul_le_mul_of_nonneg_right hL hulp.le
  · rw [habs, hsplit2]
    exact mul_lt_mul_of_pos_right hH hulp

/-- The rounding of a positive value whose binade is known. -/
theorem binary32_of_binade_pos (q : ℚ) (e : Int) (hLow : (2 : ℚ) ^ e ≤ q)
    (hHigh : q < (2 : ℚ) ^ (e + 1)) :
    binary32 q = (roundHalfEven (q / (2 : ℚ) ^ (e - 23)) : ℚ) * (2 : ℚ) ^ (e - 23) := by
  have hpos : 0 < q := lt_of_lt_of_le (by positivity) hLow
  exact binary32_of_binade q e (by rwa [abs_of_pos hpos]) (by rwa [abs_of_pos hpos])

/-- The value `1.0f`. -/
theorem binary32_one : binary32 1 = 1 := by
  have := binary32_of_significand 8388608 0 (by norm_num) (by norm_num)
  norm_num at this
  exact this

/-- The value `0.1f`, which lies above `1/10`. -/
theorem binary32_tenth : binary32 (1 / 10) = 13421773 / 134217728 := by
  rw [binary32_of_binade_pos _ (-4) (by norm_num) (by norm_num)]
  norm_num [roundHalfEven]

/-- The value `1.0f / 20.0f`, which lies above `1/20`. -/
theorem binary32_twentieth : binary32 (1 / 20) = 13421773 / 268435456 := by
  rw [binary32_of_binade_pos _ (-5) (by norm_num) (by norm_num)]
  norm_num [roundHalfEven]

/-- The value `0.1f` is a `float`. -/
theorem binary32_tenth_fixed :
    binary32 (13421773 / 134217728) = 13421773 / 134217728 := by
  have h := binary32_of_significand 13421773 (-4) (by norm_num) (by norm_num)
  norm_num at h
  exact h

/-- The value `0.5f`. -/
theorem binary32_half : binary32 (1 / 2) = 1 / 2 := by
  have h := binary32_of_significand 8388608 (-1) (by norm_num) (by norm_num)
  norm_num at h
  exact h

/-- The value `2.0f`. -/
theorem binary32_two : binary32 2 = 2 := by
  have h := binary32_of_significand 8388608 1 (by norm_num) (by norm_num)
  norm_num at h
  exact h

/-- The value `-1.0f`. -/
theorem binary32_neg_one : binary32 (-1) = -1 := by
  have h := binary32_of_significand (-8388608) 0 (by norm_num) (by norm_num)
  norm_num at h
  exact h

/-- The sum `0.5f + 0.1f` rounds up to `0.6f`, which is `0.60000002384…`. -/
theorem binary32_half_add_tenth :
    binary32 (1 / 2 + 13421773 / 134217728) = 5033165 / 8388608 := by
  rw [binary32_of_binade_pos _ (-1) (by norm_num) (by norm_num)]
  norm_num [roundHalfEven]

/-- One second in nanosecond ticks is a `float`. -/
theorem binary32_billion : binary32 1000000000 = 1000000000 := by
  have h := binary32_of_significand 15625000 29 (by norm_num) (by norm_num)
  norm_num at h
  exact h

/-- Minus one second in nanosecond ticks is a `float`. -/
theorem binary32_neg_billion : binary32 (-1000000000) = -1000000000 := by
  have h := binary32_of_significand (-15625000) 29 (by norm_num) (by norm_num)
  norm_num at h
  exact h

/-- The rounded jitter of one coordinate stays within `1/10` of the tile centre up to the
accumulated rounding error. -/
theorem jitter_binary32_bound (r : ℚ) (t : Int) (h0 : 0 ≤ r) (h1 : r ≤ 1) :
    |binary32 (binary32 (binary32 (t : ℚ) + 1 / 2) +
        binary32 (binary32 (binary32 (r * 2) - 1) * binary32 (1 / 10))) - ((t : ℚ) + 1 / 2)|
      ≤ 1 / 10 + ((|t| : Int) + 1 : ℚ) / 4194304 := by
  set a := binary32 (r * 2) with ha
  set b := binary32 (a - 1) with hb
  set off := binary32 (b * binary32 (1 / 10)) with hoff
  set tf := binary32 (t : ℚ) with htf
  set c := binary32 (tf + 1 / 2) with hc
  set p := binary32 (c + off) with hp
  have hA : (0 : ℚ) ≤ |(t : ℚ)| := abs_nonneg _
  have ea := binary32_sub_le (r * 2)
  have eb := binary32_sub_le (a - 1)
  have eoff := binary32_sub_le (b * binary32 (1 / 10))
  have etf := binary32_sub_le (t : ℚ)
  have ec := binary32_sub_le (tf + 1 / 2)
  have ep := binary32_sub_le (c + off)
  rw [← ha] at ea
  rw [← hb] at eb
  rw [← hoff] at eoff
  rw [← htf] at etf
  rw [← hc] at ec
  rw [← hp] at ep
  rw [binary32_tenth] at eoff
  -- a - 1
  have hr2 : |r * 2| ≤ 2 := by rw [abs_le]; constructor <;> linarith
  have ha1 : |a - 1| ≤ 1 + 1 / 8388608 := by
    have := abs_le.mp ea
    rw [abs_le]
    have h2 := abs_le.mp hr2
    have h3 : |r * 2| / 16777216 ≤ 1 / 8388608 := by linarith
    constructor <;> linarith [this.1, this.2]
  -- b
  have hb1 : |b| ≤ 1 + 1 / 4194304 := by
    have h := abs_sub_abs_le_abs_sub b (a - 1)
    have h3 : |a - 1| / 16777216 ≤ (1 + 1 / 8388608) / 16777216 := by
      apply div_le_div_of_nonneg_right ha1 (by norm_num)
    have : |b| ≤ |a - 1| + |a - 1| / 16777216 := by linarith
    have h4 : (1 + 1 / 8388608 : ℚ) + (1 + 1 / 8388608) / 16777216 ≤ 1 + 1 / 4194304 := by
      norm_num
    linarith
  -- off
  have hprod : |b * (13421773 / 134217728 : ℚ)| ≤ (1 + 1 / 4194304) * (13421773 / 134217728) := by
    rw [abs_mul, abs_of_pos (by norm_num : (0 : ℚ) < 13421773 / 134217728)]
    exact mul_le_mul_of_nonneg_right hb1 (by norm_num)
  have hoff1 : |off| ≤ 1 / 10 + 1 / 16777216 := by
    have h := abs_sub_abs_le_abs_sub off (b * (13421773 / 134217728 : ℚ))
    have h3 : |b * (13421773 / 134217728 : ℚ)| / 16777216 ≤
        (1 + 1 / 4194304) * (13421773 / 134217728) / 16777216 :=
      div_le_div_of_nonneg_right hprod (by norm_num)
    have h4 : (1 + 1 / 4194304 : ℚ) * (13421773 / 134217728) +
        (1 + 1 / 4194304) * (13421773 / 134217728) / 16777216 ≤ 1 / 10 + 1 / 16777216 := by
      norm_num
    linarith
  -- tf
  have htf1 : |tf| ≤ |(t : ℚ)| + |(t : ℚ)| / 16777216 := by
    have h := abs_sub_abs_le_abs_sub tf (t : ℚ)
    linarith
  -- c
  have hs : |tf + 1 / 2| ≤ |tf| + 1 / 2 := by
    have := abs_add tf (1 / 2)
    rw [abs_of_pos (by norm_num : (0 : ℚ) < 1 / 2)] at this
    exact this
  have hc1 : |c| ≤ |tf + 1 / 2| + |tf + 1 / 2| / 16777216 := by
    have h := abs_sub_abs_le_abs_sub c (tf + 1 / 2)
    linarith
  have hco : |c + off| ≤ |c| + |off| := abs_add c off
  -- total
  have hsum : p - ((t : ℚ) + 1 / 2) =
      (p - (c + off)) + off + (c - (tf + 1 / 2)) + (tf - (t : ℚ)) := by ring
  have htri : |p - ((t : ℚ) + 1 / 2)| ≤
      |p - (c + off)| + |off| + |c - (tf + 1 / 2)| + |tf - (t : ℚ)| := by
    rw [hsum]
    have h1 := abs_add ((p - (c + off)) + off + (c - (tf + 1 / 2))) (tf - (t : ℚ))
    have h2 := abs_add ((p - (c + off)) + off) (c - (tf + 1 / 2))
    have h3 := abs_add (p - (c + off)) off
    linarith
  have hcast : (((|t| : Int)) : ℚ) = |(t : ℚ)| := by push_cast; rfl
  rw [hcast]
  have hd1 : |c + off| / 16777216 ≤ (|c| + |off|) / 16777216 :=
    div_le_div_of_nonneg_right hco (by norm_num)
  have hd2 : |tf + 1 / 2| / 16777216 ≤ (|tf| + 1 / 2) / 16777216 :=
    div_le_div_of_nonneg_right hs (by norm_num)
  have hd3 : |(t : ℚ)| / 16777216 / 16777216 ≤ |(t : ℚ)| / 16777216 := by
    apply div_le_self (by positivity) (by norm_num)
  linarith

/-! ## Frame time -/

/-- C10, as the code has it: the frame time never exceeds the `float` constant
`1.0f / 20.0f`, which is `13421773/268435456` and lies above `1/20`; it is non-negative when
the current clock sample is not earlier than the previous one, and negative when the current
sample is earlier. -/
theorem dT_le_cap_and_sign (ticksPerSecond : Nat) (time1 time2 : Int) :
    dT ticksPerSecond time1 time2 ≤ 13421773 / 268435456 ∧
    (1 : ℚ) / 20 < 13421773 / 268435456 ∧
    (time1 ≤ time2 → 0 ≤ dT ticksPerSecond time1 time2) ∧
    (0 < ticksPerSecond → time2 < time1 → dT ticksPerSecond time1 time2 < 0) := by
  refine ⟨?_, by norm_num, ?_, ?_⟩
  · have h : dT ticksPerSecond time1 time2 ≤ binary32 (1 / 20) := min_le_right _ _
    rw [binary32_twentieth] at h
    exact h
  · intro h
    apply le_min
    · apply binary32_nonneg
      apply div_nonneg
      · apply binary32_nonneg
        exact_mod_cast sub_nonneg.mpr h
      · apply binary32_nonneg
        exact_mod_cast Nat.zero_le ticksPerSecond
    · rw [binary32_twentieth]
      norm_num
  · intro hpos h
    apply lt_of_le_of_lt (min_le_left _ _)
    apply binary32_neg
    apply div_neg_of_neg_of_pos
    · apply binary32_neg
      exact_mod_cast sub_neg.mpr h
    · apply binary32_pos
      exact_mod_cast hpos

/-- C10, instance: two samples one second apart on a nanosecond clock. -/
theorem dT_le_cap_and_sign_witness :
    (1000000000 : Int) ≤ 2000000000 ∧ 0 ≤ dT 1000000000 1000000000 2000000000 :=
  ⟨by decide, (dT_le_cap_and_sign 1000000000 1000000000 2000000000).2.2.1 (by decide)⟩

/-- C10, counterexample: on a nanosecond clock that was set back by one second between the
two samples the frame time is `-1`, below zero; and for two samples one second apart the
frame time is `13421773/268435456`, above `1/20`. -/
theorem dT_outside_claimed_bounds :
    dT 1000000000 2000000000 1000000000 = -1 ∧
    ¬ (0 ≤ dT 1000000000 2000000000 1000000000) ∧
    dT 1000000000 1000000000 2000000000 = 13421773 / 268435456 ∧
    ¬ (dT 1000000000 1000000000 2000000000 ≤ 1 / 20) := by
  have hBack : dT 1000000000 2000000000 1000000000 = -1 := by
    have h1 : (((1000000000 - 2000000000 : Int)) : ℚ) = -1000000000 := by norm_num
    have h2 : ((1000000000 : Nat) : ℚ) = 1000000000 := by norm_num
    simp only [dT, h1, h2, binary32_neg_billion, binary32_billion, binary32_twentieth]
    have h3 : (-1000000000 : ℚ) / 1000000000 = -1 := by norm_num
    rw [h3, binary32_neg_one]
    exact min_eq_left (by norm_num)
  have hSlow : dT 1000000000 1000000000 2000000000 = 13421773 / 268435456 := by
    have h1 : (((2000000000 - 1000000000 : Int)) : ℚ) = 1000000000 := by norm_num
    have h2 : ((1000000000 : Nat) : ℚ) = 1000000000 := by norm_num
    simp only [dT, h1, h2, binary32_billion, binary32_twentieth]
    have h3 : (1000000000 : ℚ) / 1000000000 = 1 := by norm_num
    rw [h3, binary32_one]
    exact min_eq_right (by norm_num)
  refine ⟨hBack, ?_, hSlow, ?_⟩
  · rw [hBack]
    norm_num
  · rw [hSlow]
    norm_num

/-! ## Jitter bound -/

/-- C5, as the code has it: for two `randFloat` results in `[0, 1]` the position computed
exactly lies within `1/10` of the centre of the tile under the cursor on each axis, and the
position computed in `float` arithmetic lies within `1/10 + (|tile| + 1) / 2^22` of it, where
`tile` is the tile index on that axis. -/
theorem jitter_bound (randX randY : ℚ) (posMouse : Vector2D)
    (hRandX : 0 ≤ randX ∧ randX ≤ 1) (hRandY : 0 ≤ randY ∧ randY ≤ 1) :
    |(addPlantPos randX randY posMouse).x - ((toInt posMouse.x : ℚ) + 1 / 2)| ≤ 1 / 10 ∧
    |(addPlantPos randX randY posMouse).y - ((toInt posMouse.y : ℚ) + 1 / 2)| ≤ 1 / 10 ∧
    |(addPlantPosF32 randX randY posMouse).x - ((toInt posMouse.x : ℚ) + 1 / 2)| ≤
      1 / 10 + ((|toInt posMouse.x| : Int) + 1 : ℚ) / 4194304 ∧
    |(addPlantPosF32 randX randY posMouse).y - ((toInt posMouse.y : ℚ) + 1 / 2)| ≤
      1 / 10 + ((|toInt posMouse.y| : Int) + 1 : ℚ) / 4194304 := by
  refine ⟨?_, ?_, ?_, ?_⟩
  · have h : (addPlantPos randX randY posMouse).x - ((toInt posMouse.x : ℚ) + 1 / 2) =
        (randX * 2 - 1) * (1 / 10) := by
      simp only [addPlantPos]
      ring
    rw [h, abs_le]
    constructor <;> linarith [hRandX.1, hRandX.2]
  · have h : (addPlantPos randX randY posMouse).y - ((toInt posMouse.y : ℚ) + 1 / 2) =
        (randY * 2 - 1) * (1 / 10) := by
      simp only [addPlantPos]
      ring
    rw [h, abs_le]
    constructor <;> linarith [hRandY.1, hRandY.2]
  · exact jitter_binary32_bound randX (toInt posMouse.x) hRandX.1 hRandX.2
  · exact jitter_binary32_bound randY (toInt posMouse.y) hRandY.1 hRandY.2

/-- C5, instance: a click on tile `(0, 1)` with the random results `1` and `0`. -/
theorem jitter_bound_witness :
    ((0 : ℚ) ≤ 1 ∧ (1 : ℚ) ≤ 1) ∧ ((0 : ℚ) ≤ 0 ∧ (0 : ℚ) ≤ 1) ∧
    |(addPlantPosF32 1 0 ⟨1 / 8, 9 / 8⟩).x - ((toInt (⟨1 / 8, 9 / 8⟩ : Vector2D).x : ℚ) + 1 / 2)|
      ≤ 1 / 10 + ((|toInt (⟨1 / 8, 9 / 8⟩ : Vector2D).x| : Int) + 1 : ℚ) / 4194304 :=
  ⟨by norm_num, by norm_num,
    (jitter_bound 1 0 ⟨1 / 8, 9 / 8⟩ (by norm_num) (by norm_num)).2.2.1⟩

/-- C5, counterexample: on tile `0` with the random result `1` the `float` arithmetic stores
`5033165/8388608 = 0.60000002384…`, which is more than `1/10` away from the centre `1/2`. -/
theorem jitter_exceeds_tenth_in_binary32 :
    ((0 : ℚ) ≤ 1 ∧ (1 : ℚ) ≤ 1) ∧
    toInt (1 / 8) = 0 ∧
    (addPlantPosF32 1 1 ⟨1 / 8, 1 / 8⟩).x = 5033165 / 8388608 ∧
    ¬ (|(addPlantPosF32 1 1 ⟨1 / 8, 1 / 8⟩).x - ((toInt (1 / 8 : ℚ) : ℚ) + 1 / 2)| ≤ 1 / 10) := by
  have hTile : toInt (1 / 8) = 0 := by norm_num [toInt]
  have hZero : binary32 0 = 0 := by simp [binary32]
  have hPos : (addPlantPosF32 1 1 ⟨1 / 8, 1 / 8⟩).x = 5033165 / 8388608 := by
    simp only [addPlantPosF32, hTile, Int.cast_zero, hZero, zero_add, one_mul, binary32_half,
      binary32_two, binary32_tenth]
    have h1 : (2 : ℚ) - 1 = 1 := by norm_num
    rw [h1, binary32_one, one_mul, binary32_tenth_fixed, binary32_half_add_tenth]
  refine ⟨by norm_num, hTile, hPos, ?_⟩
  rw [hPos, hTile]
  norm_num [abs_le]

/-! ## Pixel to tile -/

section Pixel

variable {Level Plant Animal : Type}

end Pixel

section EventLemmas

variable {Level Plant Animal : Type}

/-- A key-down changes the level only through a tile key, which selects the key's index. -/
theorem handleEvent_keyDown_level (c : Collaborators Level Plant Animal) (scancode : Nat)
    (s : EventLoop Level Plant Animal) :
    (handleEvent c (Event.keyDown scancode) s).game.level =
      if scancode ∈ tileKeys then
        c.levelSetTileTypeIDSelected s.game.level ((scancode : Int) - (SDL_SCANCODE_1 : Int))
      else s.game.level := by
  by_cases h : scancode ∈ SDL_SCANCODE_ESCAPE :: (tileKeys ++ plantKeys ++ animalKeys)
  · simp only [tileKeys, plantKeys, animalKeys, List.cons_append, List.nil_append,
      List.mem_cons, List.mem_singleton, List.not_mem_nil, or_false] at h
    rcases h with h | h | h | h | h | h | h | h | h | h | h | h | h | h | h | h <;>
      subst h <;> rfl
  · simp only [tileKeys, plantKeys, animalKeys, List.cons_append, List.nil_append,
      List.mem_cons, List.mem_singleton, List.not_mem_nil, or_false, not_or] at h
    obtain ⟨h0, h1, h2, h3, h4, h5, h6, h7, h8, h9, h10, h11, h12, h13, h14, h15⟩ := h
    simp [handleEvent, handleKeyDown, tileKeys,
      h0, h1, h2, h3, h4, h5, h6, h7, h8, h9, h10, h11, h12, h13, h14, h15]

/-- No key-down changes the latch or the collections. -/
theorem handleKeyDown_keeps (c : Collaborators Level Plant Animal) (scancode : Nat)
    (s : EventLoop Level Plant Animal) :
    (handleKeyDown c scancode s).game.mouseDownStatus = s.game.mouseDownStatus ∧
    (handleKeyDown c scancode s).game.listPlants = s.game.listPlants ∧
    (handleKeyDown c scancode s).game.listAnimals = s.game.listAnimals := by
  simp only [handleKeyDown, setPlantTypeIDSelected, setAnimalTypeIDSelected]
  repeat' split
  all_goals exact ⟨rfl, rfl, rfl⟩

/-- No event changes the collections. -/
theorem handleEvent_keeps_lists (c : Collaborators Level Plant Animal) (event : Event)
    (s : EventLoop Level Plant Animal) :
    (handleEvent c event s).game.listPlants = s.game.listPlants ∧
    (handleEvent c event s).game.listAnimals = s.game.listAnimals := by
  cases event with
  | quit => exact ⟨rfl, rfl⟩
  | mouseButtonDown button =>
    simp only [handleEvent]
    repeat' split
    all_goals exact ⟨rfl, rfl⟩
  | mouseButtonUp button => exact ⟨rfl, rfl⟩
  | keyDown scancode =>
    exact ⟨(handleKeyDown_keeps c scancode s).2.1, (handleKeyDown_keeps c scancode s).2.2⟩
  | other => exact ⟨rfl, rfl⟩

end EventLemmas

/-! ## Tile keys and the right button -/

section Keys

variable {Level Plant Animal : Type}

/-- C12: the tile keys are the seven consecutive scancodes from that of the key `1`; the
key-down of the `i`-th of them calls `setTileTypeIDSelected` with `i`, which is its scancode
minus the scancode of `1` and lies in `0..6` (key `1` selects `0`, key `7` selects `6`); and
a key-down of any other key leaves the level unchanged. -/
theorem tile_key_mapping (c : Collaborators Level Plant Animal)
    (s : EventLoop Level Plant Animal) :
    tileKeys = (List.range 7).map (fun i => SDL_SCANCODE_1 + i) ∧
    (∀ i : Nat, i < 7 →
      (handleEvent c (Event.keyDown (SDL_SCANCODE_1 + i)) s).game.level =
        c.levelSetTileTypeIDSelected s.game.level (i : Int)) ∧
    (∀ scancode ∈ tileKeys,
      (handleEvent c (Event.keyDown scancode) s).game.level =
          c.levelSetTileTypeIDSelected s.game.level
            ((scancode : Int) - (SDL_SCANCODE_1 : Int)) ∧
      0 ≤ (scancode : Int) - (SDL_SCANCODE_1 : Int) ∧
      (scancode : Int) - (SDL_SCANCODE_1 : Int) ≤ 6) ∧
    (handleEvent c (Event.keyDown SDL_SCANCODE_1) s).game.level =
      c.levelSetTileTypeIDSelected s.game.level 0 ∧
    (handleEvent c (Event.keyDown SDL_SCANCODE_7) s).game.level =
      c.levelSetTileTypeIDSelected s.game.level 6 ∧
    (∀ scancode : Nat, scancode ∉ tileKeys →
      (handleEvent c (Event.keyDown scancode) s).game.level = s.game.level) := by
  refine ⟨by decide, ?_, ?_, rfl, rfl, ?_⟩
  · intro i hi
    have hmem : SDL_SCANCODE_1 + i ∈ tileKeys := by
      interval_cases i <;> decide
    rw [handleEvent_keyDown_level, if_pos hmem]
    simp
  · intro scancode h
    rw [handleEvent_keyDown_level, if_pos h]
    refine ⟨rfl, ?_, ?_⟩
    · simp only [tileKeys, List.mem_cons, List.mem_singleton, List.not_mem_nil, or_false] at h
      rcases h with h | h | h | h | h | h | h <;> subst h <;> decide
    · simp only [tileKeys, List.mem_cons, List.mem_singleton, List.not_mem_nil, or_false] at h
      rcases h with h | h | h | h | h | h | h <;> subst h <;> decide
  · intro scancode h
    rw [handleEvent_keyDown_level, if_neg h]

/-- C12, instance: the key `3` pressed in the grid world selects tile type `2`. -/
theorem tile_key_mapping_witness :
    (2 : Nat) < 7 ∧
    (handleEvent gridWorld (Event.keyDown (SDL_SCANCODE_1 + 2)) gridLoop).game.level =
      gridWorld.levelSetTileTypeIDSelected gridLoop.game.level ((2 : Nat) : Int) :=
  ⟨by decide, (tile_key_mapping gridWorld gridLoop).2.1 2 (by decide)⟩

/-- C13: with the right button latched, the action is `removePlantsAtMousePosition` followed
by `removeAnimalsAtMousePosition` whatever the placement mode and the random results: the
resulting collections are the same for every mode, each is a sublist of the previous one, and
the level, the mode, both selected types and the latch are unchanged. -/
theorem right_button_mode_independent (c : Collaborators Level Plant Animal) (d : Draws)
    (posMouse : Vector2D) (g : Game Level Plant Animal)
    (hRight : g.mouseDownStatus = SDL_BUTTON_RIGHT) :
    mouseAction c d posMouse g =
      removeAnimalsAtMousePosition c posMouse (removePlantsAtMousePosition c posMouse g) ∧
    (∀ (mode : PlacementMode) (d2 : Draws),
      (mouseAction c d2 posMouse { g with placementModeCurrent := mode }).listPlants =
          (mouseAction c d posMouse g).listPlants ∧
      (mouseAction c d2 posMouse { g with placementModeCurrent := mode }).listAnimals =
          (mouseAction c d posMouse g).listAnimals) ∧
    (mouseAction c d posMouse g).listPlants.Sublist g.listPlants ∧
    (mouseAction c d posMouse g).listAnimals.Sublist g.listAnimals ∧
    (mouseAction c d posMouse g).level = g.level ∧
    (mouseAction c d posMouse g).placementModeCurrent = g.placementModeCurrent ∧
    (mouseAction c d posMouse g).plantTypeIDSelected = g.plantTypeIDSelected ∧
    (mouseAction c d posMouse g).animalTypeIDSelected = g.animalTypeIDSelected ∧
    (mouseAction c d posMouse g).mouseDownStatus = g.mouseDownStatus := by
  have h := mouseAction_right c d posMouse g hRight
  refine ⟨h, ?_, ?_, ?_, ?_, ?_, ?_, ?_, ?_⟩
  · intro mode d2
    rw [h, mouseAction_right c d2 posMouse { g with placementModeCurrent := mode } hRight]
    exact ⟨rfl, rfl⟩
  · rw [h]
    show (removePlantsAtMousePosition c posMouse g).listPlants.Sublist g.listPlants
    rw [removePlantsAtMousePosition_listPlants]
    exact List.filter_sublist _
  · rw [h, removeAnimalsAtMousePosition_listAnimals]
    exact List.filter_sublist _
  · rw [h]
    rfl
  · rw [h]
    rfl
  · rw [h]
    rfl
  · rw [h]
    rfl
  · rw [h]
    rfl

/-- C13, instance: the right button held in the grid world. -/
theorem right_button_mode_independent_witness :
    gridGameRight.mouseDownStatus = SDL_BUTTON_RIGHT ∧
    mouseAction gridWorld gridDraws ⟨13 / 4, 5 / 4⟩ gridGameRight =
      removeAnimalsAtMousePosition gridWorld ⟨13 / 4, 5 / 4⟩
        (removePlantsAtMousePosition gridWorld ⟨13 / 4, 5 / 4⟩ gridGameRight) :=
  ⟨rfl, (right_button_mode_independent gridWorld gridDraws ⟨13 / 4, 5 / 4⟩ gridGameRight rfl).1⟩

end Keys

/-! ## Erase in place as a filter -/

section Refinement

variable {Level Plant Animal : Type}

/-- The click removal of the plants rewrites only `listPlants`, to a filter. -/
theorem removePlantsAtMousePosition_eq (c : Collaborators Level Plant Animal)
    (posMouse : Vector2D) (g : Game Level Plant Animal) :
    removePlantsAtMousePosition c posMouse g =
      { g with listPlants := (g.listPlants.filter
          (fun p => !c.plantCheckOverlapWithMouse p (toInt posMouse.x) (toInt posMouse.y))) } := by
  simp only [removePlantsAtMousePosition, eraseLoop_nil_eq_filter]

/-- The click removal of the animals rewrites only `listAnimals`, to a filter. -/
theorem removeAnimalsAtMousePosition_eq (c : Collaborators Level Plant Animal)
    (posMouse : Vector2D) (g : Game Level Plant Animal) :
    removeAnimalsAtMousePosition c posMouse g =
      { g with listAnimals := (g.listAnimals.filter
          (fun a => !c.animalCheckCircleOverlap a posMouse 0)) } := by
  simp only [removeAnimalsAtMousePosition, eraseLoop_nil_eq_filter]

/-- The tile sweep of the plants rewrites only `listPlants`, to a filter. -/
theorem removePlantsIfTilesChanged_eq (c : Collaborators Level Plant Animal)
    (g : Game Level Plant Animal) :
    removePlantsIfTilesChanged c g =
      { g with listPlants := (g.listPlants.filter
          (fun p => c.plantCheckIfTilesUnderOk p g.level)) } := by
  have h := removePlantsIfTilesChanged_listPlants c g
  simp only [removePlantsIfTilesChanged] at h ⊢
  rw [h]

/-- The tile sweep of the animals rewrites only `listAnimals`, to a filter. -/
theorem removeAnimalsIfTilesChanged_eq (c : Collaborators Level Plant Animal)
    (g : Game Level Plant Animal) :
    removeAnimalsIfTilesChanged c g =
      { g with listAnimals := (g.listAnimals.filter
          (fun a => c.animalCheckIfTilesUnderOk a g.level)) } := by
  have h := removeAnimalsIfTilesChanged_listAnimals c g
  simp only [removeAnimalsIfTilesChanged] at h ⊢
  rw [h]

/-- C16: the erase-while-iterating loop started at `begin` leaves exactly the elements on
which the removal test is false, in their original order; so `removePlantsAtMousePosition`
leaves the plants whose `checkOverlapWithMouse` at the integer tile under the cursor is
false, `removeAnimalsAtMousePosition` the animals whose `checkCircleOverlap(posMouse, 0)` is
false, and the two tile sweeps the plants and the animals whose `checkIfTilesUnderOk(level)`
is true. -/
theorem erase_in_place_eq_filter (c : Collaborators Level Plant Animal) (posMouse : Vector2D)
    (g : Game Level Plant Animal) :
    (∀ (remove : Plant → Bool) (xs : List Plant),
      eraseLoop remove [] xs = xs.filter (fun x => !remove x)) ∧
    (∀ (remove : Animal → Bool) (xs : List Animal),
      eraseLoop remove [] xs = xs.filter (fun x => !remove x)) ∧
    (removePlantsAtMousePosition c posMouse g).listPlants =
      g.listPlants.filter
        (fun p => c.plantCheckOverlapWithMouse p (toInt posMouse.x) (toInt posMouse.y)
          = false) ∧
    (removeAnimalsAtMousePosition c posMouse g).listAnimals =
      g.listAnimals.filter (fun a => c.animalCheckCircleOverlap a posMouse 0 = false) ∧
    (removePlantsIfTilesChanged c g).listPlants =
      g.listPlants.filter (fun p => c.plantCheckIfTilesUnderOk p g.level = true) ∧
    (removeAnimalsIfTilesChanged c g).listAnimals =
      g.listAnimals.filter (fun a => c.animalCheckIfTilesUnderOk a g.level = true) := by
  refine ⟨fun remove xs => eraseLoop_nil_eq_filter remove xs,
    fun remove xs => eraseLoop_nil_eq_filter remove xs, ?_, ?_, ?_, ?_⟩
  · rw [removePlantsAtMousePosition_listPlants]
    congr 1
    funext p
    cases c.plantCheckOverlapWithMouse p (toInt posMouse.x) (toInt posMouse.y) <;> rfl
  · rw [removeAnimalsAtMousePosition_listAnimals]
    congr 1
    funext a
    cases c.animalCheckCircleOverlap a posMouse 0 <;> rfl
  · rw [removePlantsIfTilesChanged_listPlants]
    congr 1
    funext p
    cases c.plantCheckIfTilesUnderOk p g.level <;> rfl
  · rw [removeAnimalsIfTilesChanged_listAnimals]
    congr 1
    funext a
    cases c.animalCheckIfTilesUnderOk a g.level <;> rfl

/-- C17: the right-click removal applied twice at the same cursor position gives the same
game as applied once, the two tile sweeps applied twice with the level untouched give the
same game as applied once, and with the right button latched the action of `processEvents`
applied twice at the same cursor position gives the same game as applied once. -/
theorem removal_idempotent (c : Collaborators Level Plant Animal) (d : Draws)
    (posMouse : Vector2D) (g : Game Level Plant Animal) :
    removeAnimalsAtMousePosition c posMouse (removePlantsAtMousePosition c posMouse
        (removeAnimalsAtMousePosition c posMouse (removePlantsAtMousePosition c posMouse g))) =
      removeAnimalsAtMousePosition c posMouse (removePlantsAtMousePosition c posMouse g) ∧
    removeAnimalsIfTilesChanged c (removePlantsIfTilesChanged c
        (removeAnimalsIfTilesChanged c (removePlantsIfTilesChanged c g))) =
      removeAnimalsIfTilesChanged c (removePlantsIfTilesChanged c g) ∧
    (g.mouseDownStatus = SDL_BUTTON_RIGHT →
      mouseAction c d posMouse (mouseAction c d posMouse g) = mouseAction c d posMouse g) := by
  have hClick :
      removeAnimalsAtMousePosition c posMouse (removePlantsAtMousePosition c posMouse
        (removeAnimalsAtMousePosition c posMouse (removePlantsAtMousePosition c posMouse g))) =
      removeAnimalsAtMousePosition c posMouse (removePlantsAtMousePosition c posMouse g) := by
    simp only [removePlantsAtMousePosition_eq, removeAnimalsAtMousePosition_eq,
      List.filter_filter, Bool.and_self]
  refine ⟨hClick, ?_, ?_⟩
  · simp only [removePlantsIfTilesChanged_eq, removeAnimalsIfTilesChanged_eq,
      List.filter_filter, Bool.and_self]
  · intro hRight
    have h1 := mouseAction_right c d posMouse g hRight
    have hStatus : (mouseAction c d posMouse g).mouseDownStatus = SDL_BUTTON_RIGHT := by
      rw [h1]
      exact hRight
    rw [mouseAction_right c d posMouse _ hStatus, h1]
    exact hClick

/-- C17, instance: two right clicks on the occupied tile `(3, 1)` of the grid world. -/
theorem removal_idempotent_witness :
    gridGameRight.mouseDownStatus = SDL_BUTTON_RIGHT ∧
    mouseAction gridWorld gridDraws ⟨13 / 4, 5 / 4⟩
        (mouseAction gridWorld gridDraws ⟨13 / 4, 5 / 4⟩ gridGameRight) =
      mouseAction gridWorld gridDraws ⟨13 / 4, 5 / 4⟩ gridGameRight :=
  ⟨rfl, (removal_idempotent gridWorld gridDraws ⟨13 / 4, 5 / 4⟩ gridGameRight).2.2 rfl⟩

end Refinement

/-! ## Jitter -/

section Jitter

variable {Level Plant Animal : Type}

end Jitter

/-! ## The drain and the latched action -/

section Drain

variable {Level Plant Animal : Type}

/-- Draining a non-empty sequence handles its first event and drains the rest. -/
theorem drainEvents_cons (c : Collaborators Level Plant Animal) (event : Event)
    (events : List Event) (s : EventLoop Level Plant Animal) :
    drainEvents c (event :: events) s = drainEvents c events (handleEvent c event s) :=
  rfl

/-- The drain never changes the collections. -/
theorem drainEvents_keeps_lists (c : Collaborators Level Plant Animal) (events : List Event)
    (s : EventLoop Level Plant Animal) :
    (drainEvents c events s).game.listPlants = s.game.listPlants ∧
    (drainEvents c events s).game.listAnimals = s.game.listAnimals := by
  induction events generalizing s with
  | nil => exact ⟨rfl, rfl⟩
  | cons event rest ih =>
    rw [drainEvents_cons]
    have h := handleEvent_keeps_lists c event s
    exact ⟨(ih _).1.trans h.1, (ih _).2.trans h.2⟩

/-- A drain without mouse-button events keeps the latch. -/
theorem drainEvents_keeps_latch (c : Collaborators Level Plant Animal) (events : List Event)
    (s : EventLoop Level Plant Animal) (hNone : lastMouseEvent events = none) :
    (drainEvents c events s).game.mouseDownStatus = s.game.mouseDownStatus := by
  induction events generalizing s with
  | nil => rfl
  | cons event rest ih =>
    rw [drainEvents_cons]
    simp only [lastMouseEvent] at hNone
    cases hRest : lastMouseEvent rest with
    | some mouseEvent => simp [hRest] at hNone
    | none =>
      rw [ih _ hRest]
      rw [hRest] at hNone
      cases event with
      | quit => rfl
      | mouseButtonDown button => simp at hNone
      | mouseButtonUp button => simp at hNone
      | keyDown scancode => exact (handleKeyDown_keeps c scancode s).1
      | other => rfl

/-- A drain whose last mouse-button event is a button-up ends with no button latched. -/
theorem drainEvents_latch_after_up (c : Collaborators Level Plant Animal)
    (events : List Event) (s : EventLoop Level Plant Animal) (button : Nat)
    (hUp : lastMouseEvent events = some (Event.mouseButtonUp button)) :
    (drainEvents c events s).game.mouseDownStatus = 0 := by
  induction events generalizing s with
  | nil => simp [lastMouseEvent] at hUp
  | cons event rest ih =>
    rw [drainEvents_cons]
    simp only [lastMouseEvent] at hUp
    cases hRest : lastMouseEvent rest with
    | some mouseEvent =>
      rw [hRest] at hUp
      simp only [Option.some.injEq] at hUp
      exact ih _ (hRest.trans (congrArg some hUp))
    | none =>
      rw [drainEvents_keeps_latch c rest _ hRest]
      rw [hRest] at hUp
      cases event with
      | quit => simp at hUp
      | mouseButtonDown b => simp at hUp
      | mouseButtonUp b => rfl
      | keyDown scancode => simp at hUp
      | other => simp at hUp

/-- A drain without a tile key keeps the level. -/
theorem drainEvents_keeps_level (c : Collaborators Level Plant Animal) (events : List Event)
    (s : EventLoop Level Plant Animal)
    (hKeys : ∀ scancode ∈ tileKeys, Event.keyDown scancode ∉ events) :
    (drainEvents c events s).game.level = s.game.level := by
  induction events generalizing s with
  | nil => rfl
  | cons event rest ih =>
    rw [drainEvents_cons]
    have hRest : ∀ scancode ∈ tileKeys, Event.keyDown scancode ∉ rest := by
      intro scancode h hmem
      exact hKeys scancode h (List.mem_cons_of_mem _ hmem)
    rw [ih _ hRest]
    cases event with
    | quit => rfl
    | mouseButtonDown button =>
      simp only [handleEvent]
      repeat' split
      all_goals rfl
    | mouseButtonUp button => rfl
    | keyDown scancode =>
      rw [handleEvent_keyDown_level]
      have hNot : scancode ∉ tileKeys := by
        intro h
        exact hKeys scancode h (List.mem_cons_self _ _)
      rw [if_neg hNot]
    | other => rfl

/-- C19, as the code has it: if the last mouse-button event of the drained sequence is a
button-up, then `mouseDownStatus` is none when the cursor is sampled and the call performs
no action: the game it returns is the game the drain left, `listPlants` and `listAnimals`
are those before the call, and the level is the one before the call whenever the drained
sequence holds no tile key. -/
theorem no_action_after_button_up (c : Collaborators Level Plant Animal) (tileSize : Int)
    (events : List Event) (mouseX mouseY : Int) (d : Draws) (g : Game Level Plant Animal)
    (running : Bool) (button : Nat)
    (hUp : lastMouseEvent events = some (Event.mouseButtonUp button)) :
    (drainEvents c events ⟨g, running, false⟩).game.mouseDownStatus = 0 ∧
    (processEvents c tileSize events mouseX mouseY d g running).1 =
      (drainEvents c events ⟨g, running, false⟩).game ∧
    (processEvents c tileSize events mouseX mouseY d g running).1.listPlants = g.listPlants ∧
    (processEvents c tileSize events mouseX mouseY d g running).1.listAnimals =
      g.listAnimals ∧
    ((∀ scancode ∈ tileKeys, Event.keyDown scancode ∉ events) →
      (processEvents c tileSize events mouseX mouseY d g running).1.level = g.level) := by
  have hStatus := drainEvents_latch_after_up c events ⟨g, running, false⟩ button hUp
  have hSame : (processEvents c tileSize events mouseX mouseY d g running).1 =
      (drainEvents c events ⟨g, running, false⟩).game := by
    simp [processEvents, mouseAction, hStatus]
  have hLists := drainEvents_keeps_lists c events ⟨g, running, false⟩
  refine ⟨hStatus, hSame, ?_, ?_, ?_⟩
  · rw [hSame]
    exact hLists.1
  · rw [hSame]
    exact hLists.2
  · intro hKeys
    rw [hSame]
    exact drainEvents_keeps_level c events ⟨g, running, false⟩ hKeys

/-- C19, instance: the left button pressed and released within one drain of the grid
world. -/
theorem no_action_after_button_up_witness :
    lastMouseEvent gridPressReleaseEvents = some (Event.mouseButtonUp SDL_BUTTON_LEFT) ∧
    (processEvents gridWorld 64 gridPressReleaseEvents 194 69 gridDraws gridGame true).1 =
      (drainEvents gridWorld gridPressReleaseEvents ⟨gridGame, true, false⟩).game :=
  ⟨rfl,
    (no_action_after_button_up gridWorld 64 gridPressReleaseEvents 194 69 gridDraws gridGame
      true SDL_BUTTON_LEFT rfl).2.1⟩

/-- C19, counterexample: the key `3` followed by a button-up; the last mouse-button event is
a button-up, yet the level after the call differs from the level before it, because the key
selected tile type `2`. -/
theorem tile_key_changes_level_before_button_up :
    lastMouseEvent gridReleaseEvents = some (Event.mouseButtonUp SDL_BUTTON_LEFT) ∧
    (processEvents gridWorld 64 gridReleaseEvents 194 69 gridDraws gridGame true).1.level =
      ⟨2, []⟩ ∧
    gridGame.level = ⟨1, []⟩ ∧
    (processEvents gridWorld 64 gridReleaseEvents 194 69 gridDraws gridGame true).1.level ≠
      gridGame.level := by
  refine ⟨rfl, rfl, rfl, ?_⟩
  decide

end Drain

/-! ## The game loop -/

section Loop

variable {Level Plant Animal : Type}

/-- An event clears `running` exactly when it is a termination signal. -/
theorem handleEvent_running (c : Collaborators Level Plant Animal) (event : Event)
    (s : EventLoop Level Plant Animal) :
    (handleEvent c event s).running = (s.running && !isQuitSignal event) := by
  cases event with
  | quit => simp [handleEvent, isQuitSignal]
  | mouseButtonDown button =>
    simp only [handleEvent, isQuitSignal]
    repeat' split
    all_goals simp
  | mouseButtonUp button => simp [handleEvent, isQuitSignal]
  | other => simp [handleEvent, isQuitSignal]
  | keyDown scancode =>
    by_cases h : scancode = SDL_SCANCODE_ESCAPE
    · simp [handleEvent, handleKeyDown, isQuitSignal, h]
    · have hb : (scancode == SDL_SCANCODE_ESCAPE) = false := by simpa using h
      simp only [handleEvent, handleKeyDown, isQuitSignal, h, hb, if_false,
        setPlantTypeIDSelected, setAnimalTypeIDSelected]
      repeat' split
      all_goals simp

/-- After the drain `running` holds exactly when it held before and no event was a
termination signal. -/
theorem drainEvents_running (c : Collaborators Level Plant Animal) (events : List Event)
    (s : EventLoop Level Plant Animal) :
    (drainEvents c events s).running = (s.running && !events.any isQuitSignal) := by
  induction events generalizing s with
  | nil => simp [drainEvents]
  | cons event rest ih =>
    rw [drainEvents_cons, ih, handleEvent_running]
    simp [Bool.and_assoc]

/-- The loop makes no call when `running` is false. -/
theorem gameLoop_not_running (c : Collaborators Level Plant Animal)
    (u : UpdateCollaborators Level Plant Animal) (tileSize : Int) (ticksPerSecond : Nat)
    (frames : List FrameInput) (time1 : Int) (g : Game Level Plant Animal) :
    gameLoop c u tileSize ticksPerSecond frames time1 g false = ([], g) := by
  cases frames <;> simp [gameLoop]

/-- C14: an iteration of the loop entered with `running` true calls `processEvents` on the
game it starts with, then `update` on the game `processEvents` returns with the `dT` of the
previous and the current clock sample, then `draw` on the game `update` returns; the next
iteration starts with that game, with the current sample as previous sample, and only if the
drained events held no quit event and no Escape key-down.  So the calls are `processEvents`,
`update`, `draw`, in this order, once per iteration, for every frame up to and including the
first with a termination signal, and none after it; with `running` false no iteration is
started. -/
theorem loop_order (c : Collaborators Level Plant Animal)
    (u : UpdateCollaborators Level Plant Animal) (tileSize : Int) (ticksPerSecond : Nat)
    (frames : List FrameInput) (time1 : Int) (g : Game Level Plant Animal) :
    (∀ (frame : FrameInput) (rest : List FrameInput),
      gameLoop c u tileSize ticksPerSecond (frame :: rest) time1 g true =
        ((LoopCall.processEvents,
            (processEvents c tileSize frame.events frame.mouseX frame.mouseY frame.draws
              g true).1) ::
          (LoopCall.update,
            update u (dT ticksPerSecond time1 frame.now)
              (processEvents c tileSize frame.events frame.mouseX frame.mouseY frame.draws
                g true).1) ::
          (LoopCall.draw,
            update u (dT ticksPerSecond time1 frame.now)
              (processEvents c tileSize frame.events frame.mouseX frame.mouseY frame.draws
                g true).1) ::
          (gameLoop c u tileSize ticksPerSecond rest frame.now
            (update u (dT ticksPerSecond time1 frame.now)
              (processEvents c tileSize frame.events frame.mouseX frame.mouseY frame.draws
                g true).1)
            (!frame.events.any isQuitSignal)).1,
        (gameLoop c u tileSize ticksPerSecond rest frame.now
            (update u (dT ticksPerSecond time1 frame.now)
              (processEvents c tileSize frame.events frame.mouseX frame.mouseY frame.draws
                g true).1)
            (!frame.events.any isQuitSignal)).2)) ∧
    (gameLoop c u tileSize ticksPerSecond frames time1 g true).1.map Prod.fst =
      (List.replicate (iterations frames)
        [LoopCall.processEvents, LoopCall.update, LoopCall.draw]).flatten ∧
    gameLoop c u tileSize ticksPerSecond frames time1 g false = ([], g) ∧
    gameLoop c u tileSize ticksPerSecond [] time1 g true = ([], g) ∧
    iterations frames ≤ frames.length := by
  refine ⟨?_, ?_, gameLoop_not_running c u tileSize ticksPerSecond frames time1 g, rfl, ?_⟩
  · intro frame rest
    have hRun : (processEvents c tileSize frame.events frame.mouseX frame.mouseY
        frame.draws g true).2 = !frame.events.any isQuitSignal := by
      simp [processEvents, drainEvents_running]
    simp only [gameLoop, if_true, hRun]
  · induction frames generalizing time1 g with
    | nil => simp [gameLoop, iterations]
    | cons frame rest ih =>
      have hRun : (processEvents c tileSize frame.events frame.mouseX frame.mouseY
          frame.draws g true).2 = !frame.events.any isQuitSignal := by
        simp [processEvents, drainEvents_running]
      by_cases hq : frame.events.any isQuitSignal = true
      · simp only [gameLoop, if_true, iterations, hq, List.map_cons]
        rw [hRun, hq]
        simp [gameLoop_not_running]
      · have hq2 : frame.events.any isQuitSignal = false := by simpa using hq
        simp only [gameLoop, if_true, iterations, List.map_cons]
        rw [hRun, hq2]
        simp only [Bool.not_false, ih, Bool.false_eq_true, if_false]
        rw [Nat.add_comm, List.replicate_succ]
        simp
  · induction frames with
    | nil => simp [iterations]
    | cons frame rest ih =>
      simp only [iterations, List.length_cons]
      split <;> omega

end Loop

/-! ## The draw commands -/

section Draw

variable {Level Plant Animal : Type}

/-- The target annotation of a concatenation. -/
theorem withTargets_append (target : RenderTarget)
    (xs ys : List (DrawCommand Level Plant Animal)) :
    withTargets target (xs ++ ys) =
      withTargets target xs ++ withTargets (targetAfterAll target xs) ys := by
  induction xs generalizing target with
  | nil => rfl
  | cons x rest ih => simp [withTargets, targetAfterAll, ih]

/-- The target after a concatenation. -/
theorem targetAfterAll_append (target : RenderTarget)
    (xs ys : List (DrawCommand Level Plant Animal)) :
    targetAfterAll target (xs ++ ys) = targetAfterAll (targetAfterAll target xs) ys := by
  induction xs generalizing target with
  | nil => rfl
  | cons x rest ih => simp [targetAfterAll, ih]

/-- Commands that never switch the target are all issued on the current target. -/
theorem withTargets_map {α : Type} (target : RenderTarget)
    (f : α → DrawCommand Level Plant Animal) (xs : List α)
    (hf : ∀ x, (f x).targetAfter target = target) :
    withTargets target (xs.map f) = xs.map (fun x => (target, f x)) ∧
    targetAfterAll target (xs.map f) = target := by
  induction xs with
  | nil => exact ⟨rfl, rfl⟩
  | cons x rest ih => simp [withTargets, targetAfterAll, hf, ih.1, ih.2]

/-- C15: `draw` issues, in this order: draw colour and clear of the current target, the
level's draw, the switch to `textureShadows`, transparent colour and clear, the level's
shadows, each plant's shadow and each animal's shadow in collection order, the switch back
to the window, the copy of `textureShadows`, each plant's and each animal's draw in
collection order, and present.  Every shadow command is issued on `textureShadows`, every
body draw and the final present on the window, the window is the target when `draw` returns,
and every shadow command precedes every body draw. -/
theorem draw_command_order (tileSize : Int) (g : Game Level Plant Animal)
    (target : RenderTarget) :
    withTargets target (draw tileSize g) =
      [(target, DrawCommand.setRenderDrawColor 0 0 0 255),
        (target, DrawCommand.renderClear),
        (target, DrawCommand.levelDraw g.level tileSize),
        (target, DrawCommand.setRenderTarget RenderTarget.textureShadows),
        (RenderTarget.textureShadows, DrawCommand.setRenderDrawColor 0 0 0 0),
        (RenderTarget.textureShadows, DrawCommand.renderClear),
        (RenderTarget.textureShadows, DrawCommand.levelDrawShadows g.level tileSize)]
      ++ g.listPlants.map
          (fun p => (RenderTarget.textureShadows, DrawCommand.plantDrawShadow p tileSize))
      ++ g.listAnimals.map
          (fun a => (RenderTarget.textureShadows, DrawCommand.animalDrawShadow a tileSize))
      ++ [(RenderTarget.textureShadows, DrawCommand.setRenderTarget RenderTarget.window),
        (RenderTarget.window, DrawCommand.renderCopy)]
      ++ g.listPlants.map (fun p => (RenderTarget.window, DrawCommand.plantDraw p tileSize))
      ++ g.listAnimals.map (fun a => (RenderTarget.window, DrawCommand.animalDraw a tileSize))
      ++ [(RenderTarget.window, DrawCommand.renderPresent)] ∧
    (withTargets target (draw tileSize g)).getLast? =
      some (RenderTarget.window, DrawCommand.renderPresent) ∧
    targetAfterAll target (draw tileSize g) = RenderTarget.window ∧
    (∀ tc ∈ withTargets target (draw tileSize g),
      tc.2.isShadow = true → tc.1 = RenderTarget.textureShadows) ∧
    (∀ tc ∈ withTargets target (draw tileSize g),
      tc.2.isBody = true → tc.1 = RenderTarget.window) ∧
    (∃ pre post : List (DrawCommand Level Plant Animal),
      draw tileSize g = pre ++ post ∧
      (∀ command ∈ pre, command.isBody = false) ∧
      (∀ command ∈ post, command.isShadow = false)) := by
  have hPS := fun t => withTargets_map t
    (fun p : Plant => (DrawCommand.plantDrawShadow p tileSize : DrawCommand Level Plant Animal))
    g.listPlants (fun _ => rfl)
  have hAS := fun t => withTargets_map t
    (fun a : Animal => (DrawCommand.animalDrawShadow a tileSize : DrawCommand Level Plant Animal))
    g.listAnimals (fun _ => rfl)
  have hPD := fun t => withTargets_map t
    (fun p : Plant => (DrawCommand.plantDraw p tileSize : DrawCommand Level Plant Animal))
    g.listPlants (fun _ => rfl)
  have hAD := fun t => withTargets_map t
    (fun a : Animal => (DrawCommand.animalDraw a tileSize : DrawCommand Level Plant Animal))
    g.listAnimals (fun _ => rfl)
  have hEq : withTargets target (draw tileSize g) =
      [(target, DrawCommand.setRenderDrawColor 0 0 0 255),
        (target, DrawCommand.renderClear),
        (target, DrawCommand.levelDraw g.level tileSize),
        (target, DrawCommand.setRenderTarget RenderTarget.textureShadows),
        (RenderTarget.textureShadows, DrawCommand.setRenderDrawColor 0 0 0 0),
        (RenderTarget.textureShadows, DrawCommand.renderClear),
        (RenderTarget.textureShadows, DrawCommand.levelDrawShadows g.level tileSize)]
      ++ g.listPlants.map
          (fun p => (RenderTarget.textureShadows, DrawCommand.plantDrawShadow p tileSize))
      ++ g.listAnimals.map
          (fun a => (RenderTarget.textureShadows, DrawCommand.animalDrawShadow a tileSize))
      ++ [(RenderTarget.textureShadows, DrawCommand.setRenderTarget RenderTarget.window),
        (RenderTarget.window, DrawCommand.renderCopy)]
      ++ g.listPlants.map (fun p => (RenderTarget.window, DrawCommand.plantDraw p tileSize))
      ++ g.listAnimals.map (fun a => (RenderTarget.window, DrawCommand.animalDraw a tileSize))
      ++ [(RenderTarget.window, DrawCommand.renderPresent)] := by
    have hHead : ∀ rest : List (DrawCommand Level Plant Animal),
        withTargets target
          ([DrawCommand.setRenderDrawColor 0 0 0 255,
            DrawCommand.renderClear,
            DrawCommand.levelDraw g.level tileSize,
            DrawCommand.setRenderTarget RenderTarget.textureShadows,
            DrawCommand.setRenderDrawColor 0 0 0 0,
            DrawCommand.renderClear,
            DrawCommand.levelDrawShadows g.level tileSize] ++ rest) =
        [(target, DrawCommand.setRenderDrawColor 0 0 0 255),
          (target, DrawCommand.renderClear),
          (target, DrawCommand.levelDraw g.level tileSize),
          (target, DrawCommand.setRenderTarget RenderTarget.textureShadows),
          (RenderTarget.textureShadows, DrawCommand.setRenderDrawColor 0 0 0 0),
          (RenderTarget.textureShadows, DrawCommand.renderClear),
          (RenderTarget.textureShadows, DrawCommand.levelDrawShadows g.level tileSize)] ++
          withTargets RenderTarget.textureShadows rest := fun _ => rfl
    have hMid : ∀ rest : List (DrawCommand Level Plant Animal),
        withTargets RenderTarget.textureShadows
          ([DrawCommand.setRenderTarget RenderTarget.window, DrawCommand.renderCopy] ++ rest) =
        [(RenderTarget.textureShadows, DrawCommand.setRenderTarget RenderTarget.window),
          (RenderTarget.window, DrawCommand.renderCopy)] ++
          withTargets RenderTarget.window rest := fun _ => rfl
    have hLast : withTargets RenderTarget.window
        ([DrawCommand.renderPresent] : List (DrawCommand Level Plant Animal)) =
        [(RenderTarget.window, DrawCommand.renderPresent)] := rfl
    simp only [draw, List.append_assoc]
    rw [hHead, withTargets_append, (hPS _).1, (hPS _).2, withTargets_append, (hAS _).1,
      (hAS _).2, hMid, withTargets_append, (hPD _).1, (hPD _).2, withTargets_append,
      (hAD _).1, (hAD _).2, hLast]
  refine ⟨hEq, ?_, ?_, ?_, ?_, ?_⟩
  · rw [hEq]
    exact List.getLast?_concat _
  · simp only [draw, targetAfterAll_append, (hPS _).2, (hAS _).2, (hPD _).2, (hAD _).2]
    rfl
  · intro tc htc hShadow
    rw [hEq] at htc
    simp only [List.mem_append, List.mem_cons, List.mem_singleton, List.mem_map,
      List.not_mem_nil, or_false] at htc
    casesm* _ ∨ _, ∃ _, _, _ ∧ _
    all_goals subst_vars
    all_goals first | rfl | exact Bool.noConfusion hShadow
  · intro tc htc hBody
    rw [hEq] at htc
    simp only [List.mem_append, List.mem_cons, List.mem_singleton, List.mem_map,
      List.not_mem_nil, or_false] at htc
    casesm* _ ∨ _, ∃ _, _, _ ∧ _
    all_goals subst_vars
    all_goals first | rfl | exact Bool.noConfusion hBody
  · refine ⟨[DrawCommand.setRenderDrawColor 0 0 0 255,
        DrawCommand.renderClear,
        DrawCommand.levelDraw g.level tileSize,
        DrawCommand.setRenderTarget RenderTarget.textureShadows,
        DrawCommand.setRenderDrawColor 0 0 0 0,
        DrawCommand.renderClear,
        DrawCommand.levelDrawShadows g.level tileSize]
      ++ g.listPlants.map (fun p => DrawCommand.plantDrawShadow p tileSize)
      ++ g.listAnimals.map (fun a => DrawCommand.animalDrawShadow a tileSize),
      [DrawCommand.setRenderTarget RenderTarget.window, DrawCommand.renderCopy]
      ++ g.listPlants.map (fun p => DrawCommand.plantDraw p tileSize)
      ++ g.listAnimals.map (fun a => DrawCommand.animalDraw a tileSize)
      ++ [DrawCommand.renderPresent], ?_, ?_, ?_⟩
    · simp only [draw, List.append_assoc]
    · intro command hmem
      simp only [List.mem_append, List.mem_cons, List.mem_singleton, List.mem_map,
        List.not_mem_nil, or_false] at hmem
      casesm* _ ∨ _, ∃ _, _, _ ∧ _
      all_goals subst_vars
      all_goals rfl
    · intro command hmem
      simp only [List.mem_append, List.mem_cons, List.mem_singleton, List.mem_map,
        List.not_mem_nil, or_false] at hmem
      casesm* _ ∨ _, ∃ _, _, _ ∧ _
      all_goals subst_vars
      all_goals rfl

end Draw

/-- C15, instance: in the grid world the level's shadows are drawn on `textureShadows`. -/
theorem draw_command_order_witness :
    (RenderTarget.textureShadows, DrawCommand.levelDrawShadows gridGame.level 64) ∈
      withTargets RenderTarget.window (draw 64 gridGame) ∧
    (DrawCommand.levelDrawShadows gridGame.level 64 :
      DrawCommand GridLevel GridPlant GridAnimal).isShadow = true ∧
    (RenderTarget.textureShadows, (DrawCommand.levelDrawShadows gridGame.level 64 :
      DrawCommand GridLevel GridPlant GridAnimal)).1 = RenderTarget.textureShadows :=
  ⟨by repeat (first | exact List.Mem.head _ | apply List.Mem.tail), rfl,
    (draw_command_order 64 gridGame RenderTarget.window).2.2.2.1 _
      (by repeat (first | exact List.Mem.head _ | apply List.Mem.tail)) rfl⟩

end AlienFarm
